import Mathlib

/-!
# Room and session registry of `server.go`

A shallow embedding of the registry part of `server.go`: the six package-level
tables of rooms and games, `isRoomExist`, `generateRoomid`,
`removeExpiredRoom`, `getPlayerNow`, `getRandomInt`, `getCookie` and
`getExpireTime`, followed by the properties proved about them.  The seventh table, `rooms`, is assigned in
`main` and read or written by none of these functions; it is left out.

Modelling conventions.

* A Go `map[string]V` is a `GoMap V`: a list of key/value entries with pairwise
  distinct keys.  The order of the list stands for the (unspecified) order in
  which a `range` loop visits the entries; every theorem quantifies over all
  tables and so over all visiting orders.
* An instant (`time.Time`) is an integer number of clock ticks and
  `t.After(u)` is `u < t`.
* `time.Now()` is read once per loop iteration in `removeExpiredRoom`; the
  sweep therefore takes a clock `Nat → Time` giving the reading of the k-th
  iteration.  A sweep "at time now" is the sweep with the constant clock.
* `rand.Intn(i)` yields a value of `Fin i`; the random source is a stream
  `Nat → Fin i` of draws.
* The unbounded `for` loop of `generateRoomid` is run with a fuel bound;
  `none` means that the fuel was used up before the loop returned.
-/

namespace AmbersGames

/-! ## Time -/

/-- An instant, as a number of clock ticks. -/
abbrev Time := Int

/-- The Go method `t.After(u)`: true when `t` is strictly later than `u`. -/
def Time.After (t u : Time) : Bool := decide (u < t)

/-! ## Go maps with string keys -/

/-- A Go `map[string]V`: entries with pairwise distinct keys. -/
structure GoMap (V : Type) where
  entries : List (String × V)
  nodup : (entries.map Prod.fst).Nodup

namespace GoMap

variable {V : Type}

/-- The map made by `make(map[string]V, 0)`. -/
def empty : GoMap V := ⟨[], List.nodup_nil⟩

/-- The keys of the map, in visiting order. -/
def keys (m : GoMap V) : List String := m.entries.map Prod.fst

/-- The value stored under `k`, if any: the first result of `v, ok := m[k]`. -/
def get? (m : GoMap V) (k : String) : Option V := List.lookup k m.entries

/-- The `ok` of `_, ok := m[k]`. -/
def contains (m : GoMap V) (k : String) : Bool := (m.get? k).isSome

/-- The builtin `delete(m, k)`: the entry under `k`, if any, is dropped. -/
def delete (m : GoMap V) (k : String) : GoMap V :=
  ⟨m.entries.filter (fun e => e.1 != k),
    List.Nodup.sublist (List.Sublist.map Prod.fst (List.filter_sublist m.entries)) m.nodup⟩

/-- The assignment `m[k] = v`: the entry under `k`, if any, is replaced. -/
def set (m : GoMap V) (k : String) (v : V) : GoMap V :=
  ⟨(k, v) :: m.entries.filter (fun e => e.1 != k), by
    rw [List.map_cons, List.nodup_cons]
    refine ⟨?_, List.Nodup.sublist
      (List.Sublist.map Prod.fst (List.filter_sublist m.entries)) m.nodup⟩
    intro hk
    rcases List.mem_map.1 hk with ⟨e, he, hek⟩
    have := (List.mem_filter.1 he).2
    simp [hek] at this⟩

end GoMap

/-! ## Room records -/

/-- Modelled from the spec: the struct `AirplaneRoom` is declared outside
`server.go`; these are the fields `server.go` reads (`player1`, `player2`,
`expire`), the slot fields being session tokens and `expire` an instant. -/
structure AirplaneRoom where
  player1 : String
  player2 : String
  expire : Time
  deriving DecidableEq

/-- Modelled from the spec: the struct `RPSRoom` is declared outside
`server.go`; these are the fields `server.go` reads. -/
structure RPSRoom where
  player1 : String
  player2 : String
  expire : Time
  deriving DecidableEq

/-- Modelled from the spec: the struct `TicTacToeBoxRoom` is declared outside
`server.go`; these are the fields `server.go` reads. -/
structure TicTacToeBoxRoom where
  player1 : String
  player2 : String
  expire : Time
  deriving DecidableEq

/-- The package-level tables of `server.go`.  The game-state types
`AirplaneGame`, `RPSGame` and `TicTacToeBoxGame` are declared elsewhere and
never inspected here, so they are type parameters. -/
structure Server (AG RG TG : Type) where
  airplaneRooms : GoMap AirplaneRoom
  airplaneGames : GoMap AG
  rpsRooms : GoMap RPSRoom
  rpsGames : GoMap RG
  tictactoeRooms : GoMap TicTacToeBoxRoom
  tictactoeGames : GoMap TG

/-! ## Random identifiers -/

/-- The Go function `strconv.Itoa`: the decimal representation of an `int`. -/
def Itoa : Int → String
  | Int.ofNat n => Nat.repr n
  | Int.negSucc n => "-" ++ Nat.repr (n + 1)

/-- `getRandomInt(i)`: `strconv.Itoa(rand.Intn(i))`, where `r` is the value
returned by `rand.Intn(i)`. -/
def getRandomInt (i : Nat) (r : Fin i) : String := Itoa (Int.ofNat r.val)

/-! ## isRoomExist -/

variable {AG RG TG : Type}

/-- `func (room AirplaneRoom) isRoomExist(roomid string) bool`. -/
def AirplaneRoom.isRoomExist (_room : AirplaneRoom) (s : Server AG RG TG)
    (roomid : String) : Bool :=
  if s.airplaneRooms.contains roomid then true else false

/-- `func (room RPSRoom) isRoomExist(roomid string) bool`. -/
def RPSRoom.isRoomExist (_room : RPSRoom) (s : Server AG RG TG)
    (roomid : String) : Bool :=
  if s.rpsRooms.contains roomid then true else false

/-- `func (room TicTacToeBoxRoom) isRoomExist(roomid string) bool`. -/
def TicTacToeBoxRoom.isRoomExist (_room : TicTacToeBoxRoom) (s : Server AG RG TG)
    (roomid : String) : Bool :=
  if s.tictactoeRooms.contains roomid then true else false

/-! ## generateRoomid -/

/-- The loop of `AirplaneRoom.generateRoomid`, started at iteration `index`:
the result is the returned roomid together with the number of draws taken
from `rand` so far. -/
def AirplaneRoom.generateRoomidLoop (room : AirplaneRoom) (s : Server AG RG TG)
    (rand : Nat → Fin 1000000) : Nat → Nat → Option (String × Nat)
  | 0, _ => none
  | fuel + 1, index =>
    let roomid := getRandomInt 1000000 (rand index)
    if !room.isRoomExist s roomid then some (roomid, index + 1)
    else AirplaneRoom.generateRoomidLoop room s rand fuel (index + 1)

/-- `func (room AirplaneRoom) generateRoomid() string`. -/
def AirplaneRoom.generateRoomid (room : AirplaneRoom) (s : Server AG RG TG)
    (rand : Nat → Fin 1000000) (fuel : Nat) : Option (String × Nat) :=
  AirplaneRoom.generateRoomidLoop room s rand fuel 0

/-- The loop of `RPSRoom.generateRoomid`, started at iteration `index`. -/
def RPSRoom.generateRoomidLoop (room : RPSRoom) (s : Server AG RG TG)
    (rand : Nat → Fin 1000000) : Nat → Nat → Option (String × Nat)
  | 0, _ => none
  | fuel + 1, index =>
    let roomid := getRandomInt 1000000 (rand index)
    if !room.isRoomExist s roomid then some (roomid, index + 1)
    else RPSRoom.generateRoomidLoop room s rand fuel (index + 1)

/-- `func (room RPSRoom) generateRoomid() string`. -/
def RPSRoom.generateRoomid (room : RPSRoom) (s : Server AG RG TG)
    (rand : Nat → Fin 1000000) (fuel : Nat) : Option (String × Nat) :=
  RPSRoom.generateRoomidLoop room s rand fuel 0

/-- The loop of `TicTacToeBoxRoom.generateRoomid`, started at iteration
`index`. -/
def TicTacToeBoxRoom.generateRoomidLoop (room : TicTacToeBoxRoom)
    (s : Server AG RG TG) (rand : Nat → Fin 1000000) :
    Nat → Nat → Option (String × Nat)
  | 0, _ => none
  | fuel + 1, index =>
    let roomid := getRandomInt 1000000 (rand index)
    if !room.isRoomExist s roomid then some (roomid, index + 1)
    else TicTacToeBoxRoom.generateRoomidLoop room s rand fuel (index + 1)

/-- `func (room TicTacToeBoxRoom) generateRoomid() string`. -/
def TicTacToeBoxRoom.generateRoomid (room : TicTacToeBoxRoom) (s : Server AG RG TG)
    (rand : Nat → Fin 1000000) (fuel : Nat) : Option (String × Nat) :=
  TicTacToeBoxRoom.generateRoomidLoop room s rand fuel 0

/-! ## removeExpiredRoom -/

/-- The `range` loop of `AirplaneRoom.removeExpiredRoom` over the entries still
to visit; `k` counts the iterations done, so `clock k` is what `time.Now()`
returns in this iteration.  An iteration deletes at most the key it is
visiting, so the entries still to visit are those of the table when the loop
started. -/
def AirplaneRoom.removeExpiredRoomLoop (clock : Nat → Time) :
    Nat → List (String × AirplaneRoom) → Server AG RG TG → Server AG RG TG
  | _, [], s => s
  | k, (roomid, room) :: rest, s =>
    if (clock k).After room.expire then
      AirplaneRoom.removeExpiredRoomLoop clock (k + 1) rest
        { s with airplaneRooms := s.airplaneRooms.delete roomid,
                 airplaneGames := s.airplaneGames.delete roomid }
    else AirplaneRoom.removeExpiredRoomLoop clock (k + 1) rest s

/-- `func (room AirplaneRoom) removeExpiredRoom()`. -/
def AirplaneRoom.removeExpiredRoom (_room : AirplaneRoom) (clock : Nat → Time)
    (s : Server AG RG TG) : Server AG RG TG :=
  AirplaneRoom.removeExpiredRoomLoop clock 0 s.airplaneRooms.entries s

/-- The `range` loop of `RPSRoom.removeExpiredRoom`. -/
def RPSRoom.removeExpiredRoomLoop (clock : Nat → Time) :
    Nat → List (String × RPSRoom) → Server AG RG TG → Server AG RG TG
  | _, [], s => s
  | k, (roomid, room) :: rest, s =>
    if (clock k).After room.expire then
      RPSRoom.removeExpiredRoomLoop clock (k + 1) rest
        { s with rpsRooms := s.rpsRooms.delete roomid,
                 rpsGames := s.rpsGames.delete roomid }
    else RPSRoom.removeExpiredRoomLoop clock (k + 1) rest s

/-- `func (room RPSRoom) removeExpiredRoom()`. -/
def RPSRoom.removeExpiredRoom (_room : RPSRoom) (clock : Nat → Time)
    (s : Server AG RG TG) : Server AG RG TG :=
  RPSRoom.removeExpiredRoomLoop clock 0 s.rpsRooms.entries s

/-- The `range` loop of `TicTacToeBoxRoom.removeExpiredRoom`. -/
def TicTacToeBoxRoom.removeExpiredRoomLoop (clock : Nat → Time) :
    Nat → List (String × TicTacToeBoxRoom) → Server AG RG TG → Server AG RG TG
  | _, [], s => s
  | k, (roomid, room) :: rest, s =>
    if (clock k).After room.expire then
      TicTacToeBoxRoom.removeExpiredRoomLoop clock (k + 1) rest
        { s with tictactoeRooms := s.tictactoeRooms.delete roomid,
                 tictactoeGames := s.tictactoeGames.delete roomid }
    else TicTacToeBoxRoom.removeExpiredRoomLoop clock (k + 1) rest s

/-- `func (room TicTacToeBoxRoom) removeExpiredRoom()`. -/
def TicTacToeBoxRoom.removeExpiredRoom (_room : TicTacToeBoxRoom)
    (clock : Nat → Time) (s : Server AG RG TG) : Server AG RG TG :=
  TicTacToeBoxRoom.removeExpiredRoomLoop clock 0 s.tictactoeRooms.entries s

/-! ## getPlayerNow -/

/-- `func (room AirplaneRoom) getPlayerNow(user string) string`: a `switch`
whose cases are tried in order. -/
def AirplaneRoom.getPlayerNow (room : AirplaneRoom) (user : String) : String :=
  if user = room.player1 then "player1"
  else if user = room.player2 then "player2"
  else ""

/-- `func (room RPSRoom) getPlayerNow(user string) string`. -/
def RPSRoom.getPlayerNow (room : RPSRoom) (user : String) : String :=
  if user = room.player1 then "player1"
  else if user = room.player2 then "player2"
  else ""

/-- `func (room TicTacToeBoxRoom) getPlayerNow(user string) string`. -/
def TicTacToeBoxRoom.getPlayerNow (room : TicTacToeBoxRoom) (user : String) : String :=
  if user = room.player1 then "player1"
  else if user = room.player2 then "player2"
  else ""

/-! ## The generic sweep

The three sweeps run the same loop on their own pair of tables.  The loop is
stated once over a pair of tables and each sweep is shown to be an instance. -/

/-- The sweep loop over one pair of tables. -/
def sweepLoop {R G : Type} (expire : R → Time) (clock : Nat → Time) :
    Nat → List (String × R) → GoMap R × GoMap G → GoMap R × GoMap G
  | _, [], p => p
  | k, (roomid, room) :: rest, p =>
    if (clock k).After (expire room) then
      sweepLoop expire clock (k + 1) rest (p.1.delete roomid, p.2.delete roomid)
    else sweepLoop expire clock (k + 1) rest p

/-- The sweep of one pair of tables. -/
def sweep {R G : Type} (expire : R → Time) (clock : Nat → Time)
    (rooms : GoMap R) (games : GoMap G) : GoMap R × GoMap G :=
  sweepLoop expire clock 0 rooms.entries (rooms, games)

/-- The keys the sweep loop deletes: those visited while the clock reads an
instant after their expire. -/
def removedKeys {R : Type} (expire : R → Time) (clock : Nat → Time) :
    Nat → List (String × R) → List String
  | _, [] => []
  | k, (roomid, room) :: rest =>
    if (clock k).After (expire room) then roomid :: removedKeys expire clock (k + 1) rest
    else removedKeys expire clock (k + 1) rest

/-- Storing `v` under `k` replaces no entry of `m`: every entry of `m` is still
there, the keys are still pairwise distinct and there is one more of them. -/
def GoMap.ReplacesNothing {V : Type} (m : GoMap V) (k : String) (v : V) : Prop :=
  (∀ x r, m.get? x = some r → (m.set k v).get? x = some r) ∧
    (m.set k v).keys.Nodup ∧ (m.set k v).keys.length = m.keys.length + 1

/-- What a sweep from `rooms` to `rooms'` and `games'` guarantees: a room left
in the table was visited while the clock did not read an instant after its
expire; so, when the clock reads `now` in every iteration, no room left has
its expire before `now`; and a key taken out of the room table is not in the
game table. -/
def SweepSound {R G : Type} (expire : R → Time) (clock : Nat → Time)
    (rooms rooms' : GoMap R) (games' : GoMap G) : Prop :=
  (∀ x r, rooms'.get? x = some r →
      ∃ i : Nat, rooms.entries[i]? = some (x, r) ∧ (clock i).After (expire r) = false) ∧
    (∀ now, (∀ k, clock k = now) →
      ∀ x r, rooms'.get? x = some r → now.After (expire r) = false) ∧
    (∀ x, x ∈ rooms.keys → x ∉ rooms'.keys → x ∉ games'.keys)

/-- The contract of `getPlayerNow` for a room with slots `p1` and `p2`, a token
`user` and a result `res`. -/
def SlotContract (p1 p2 user res : String) : Prop :=
  (user = p1 → res = "player1") ∧
    (user = p2 → user ≠ p1 → res = "player2") ∧
    (res = "" ↔ user ≠ p1 ∧ user ≠ p2) ∧
    (res = "player1" ∨ res = "player2" ∨ res = "")

/-- The number denoted by a list of decimal digits, most significant first. -/
def decimalValue (l : List Char) : Nat :=
  l.foldl (fun acc c => 10 * acc + (c.toNat - '0'.toNat)) 0

/-- The string `str` is the canonical decimal string of `n`: it is made of the
digits `0` to `9` only (so it has no sign), it has no leading zero unless it
is `"0"` itself, and it denotes `n`. -/
def IsCanonicalDecimal (str : String) (n : Nat) : Prop :=
  (∀ c ∈ str.data, c.isDigit = true) ∧
    (str.data.head? = some '0' → str = "0") ∧ decimalValue str.data = n

/-! ## The generic retry loop -/

/-- The retry loop of `generateRoomid` over any membership test `isExist`: the
three `generateRoomid` run it with their own `isRoomExist`. -/
def retryLoop (isExist : String → Bool) (rand : Nat → Fin 1000000) :
    Nat → Nat → Option (String × Nat)
  | 0, _ => none
  | fuel + 1, index =>
    let roomid := getRandomInt 1000000 (rand index)
    if !isExist roomid then some (roomid, index + 1)
    else retryLoop isExist rand fuel (index + 1)

/-! ## Cookies -/

/-- The error values `getCookie` can hand back: `http.ErrNoCookie` of net/http
and the package-level `CookieNotSet` of `server.go`. -/
inductive GoError where
  | ErrNoCookie
  | CookieNotSet
  deriving DecidableEq

/-- The type `http.Cookie`, reduced to the name and the value of a cookie sent by
the client. -/
structure http.Cookie where
  Name : String
  Value : String
  deriving DecidableEq

/-- The type `http.Request`, reduced to the cookies net/http reads from its
`Cookie` headers, in their order. -/
structure http.Request where
  cookies : List http.Cookie

/-- The net/http method `r.Cookie(name)`: the named cookie of the request (the
first one when several have that name) with a nil error, or a nil cookie with
`ErrNoCookie` when there is none. -/
def http.Request.Cookie (r : http.Request) (name : String) :
    Option http.Cookie × Option GoError :=
  match r.cookies.find? (fun c => c.Name == name) with
  | some c => (some c, none)
  | none => (none, some GoError.ErrNoCookie)

/-- `func getCookie(r *http.Request) (string, error)`. -/
def getCookie (r : http.Request) : String × Option GoError :=
  match r.Cookie "gameUser" with
  | (cookie, err) =>
    if err ≠ none then ("", err)
    else
      match cookie with
      | none => ("", some GoError.CookieNotSet)
      | some c => (c.Value, none)

/-! ## Expiry of credentials

For `getExpireTime` an instant is counted in seconds since the Unix epoch; the
part of an instant below one second is carried over unchanged by `AddDate` and
is left out.  The time zone the server runs in is a parameter: `time.Now()`
hands back an instant in the zone `time.Local`. -/

/-- A period of a time zone, as `lookup` of the package `time` reports it: the
offset from UTC in seconds, in force for the instants from `start` up to but
not including `stop`. -/
structure Zone where
  offset : Int
  start : Time
  stop : Time

/-- The type `time.Location`: for every instant, the period of the zone in force
at that instant. -/
structure Location where
  lookup : Time → Zone

/-- The wall-clock reading of `t` in `loc`, in seconds: what `t.Date()` and
`t.Clock()` split into year, month, day, hour, minute and second. -/
def Time.abs (t : Time) (loc : Location) : Int := t + (loc.lookup t).offset

/-- The function `time.Date` on a wall-clock reading `wall`, given in seconds, in
`loc`: it looks up the zone as if `wall` were UTC, and looks it up again at the
corrected instant when that instant falls outside of the period found. -/
def Date (wall : Int) (loc : Location) : Time :=
  let z := loc.lookup wall
  if z.offset ≠ 0 then
    let utc := wall - z.offset
    if utc < z.start ∨ utc ≥ z.stop then wall - (loc.lookup utc).offset
    else wall - z.offset
  else wall

/-- The call `t.AddDate(0, 0, days)`: `time.Date` on the year, month, day and
clock of `t` in `loc` with `days` added to the day.  `Date` carries a day past
the end of the month over, so the wall-clock reading handed to it is that of
`t` plus `days` times 86,400 seconds. -/
def Time.AddDate (t : Time) (loc : Location) (days : Int) : Time :=
  Date (t.abs loc + days * 86400) loc

/-- `func getExpireTime() time.Time`, that is `time.Now().AddDate(0, 0, 1)`, for
the local zone `loc` and the instant `now` that `time.Now()` reads. -/
def getExpireTime (loc : Location) (now : Time) : Time := now.AddDate loc 1

/-! ## Comparing the three registries -/

/-- The table with the same keys in the same order, each value sent through
`f`. -/
def GoMap.map {V W : Type} (f : V → W) (m : GoMap V) : GoMap W :=
  ⟨m.entries.map (fun e => (e.1, f e.2)), by
    have h : (m.entries.map (fun e => (e.1, f e.2))).map Prod.fst =
        m.entries.map Prod.fst := by
      rw [List.map_map]
      rfl
    rw [h]
    exact m.nodup⟩

/-- The RPS room with the fields of an Airplane room. -/
def AirplaneRoom.toRPS (r : AirplaneRoom) : RPSRoom := ⟨r.player1, r.player2, r.expire⟩

/-- The TicTacToe room with the fields of an Airplane room. -/
def AirplaneRoom.toTicTacToe (r : AirplaneRoom) : TicTacToeBoxRoom :=
  ⟨r.player1, r.player2, r.expire⟩

/-! ## Concrete tables used in the examples -/

/-- A server whose three registries each hold a waiting room `"100"` that
expires at instant 5 and a full room `"200"` that expires at instant 0. -/
def exServer : Server Nat Nat Nat where
  airplaneRooms := ⟨[("100", ⟨"17", "", 5⟩), ("200", ⟨"23", "42", 0⟩)], by decide⟩
  airplaneGames := ⟨[("100", 1), ("200", 2)], by decide⟩
  rpsRooms := ⟨[("100", ⟨"17", "", 5⟩), ("200", ⟨"23", "42", 0⟩)], by decide⟩
  rpsGames := ⟨[("100", 3), ("200", 4)], by decide⟩
  tictactoeRooms := ⟨[("100", ⟨"17", "", 5⟩), ("200", ⟨"23", "42", 0⟩)], by decide⟩
  tictactoeGames := ⟨[("100", 5), ("200", 6)], by decide⟩

/-- A clock that reads 5 in the first iteration of a sweep and 10 afterwards. -/
def exClock : Nat → Time := fun k => if k = 0 then 5 else 10

/-- A random source whose first draw is 100 and whose later draws are 300. -/
def exRand : Nat → Fin 1000000 := fun k => if k = 0 then 100 else 300

/-- A receiver value for the Airplane methods. -/
def exAirplaneRoom : AirplaneRoom := ⟨"17", "", 5⟩

/-- A receiver value for the RPS methods. -/
def exRPSRoom : RPSRoom := ⟨"17", "", 5⟩

/-- A receiver value for the TicTacToe methods. -/
def exTicTacToeBoxRoom : TicTacToeBoxRoom := ⟨"17", "", 5⟩

/-- A server with the Airplane tables of `exServer` and other contents in the
RPS and TicTacToe tables. -/
def exServerOther : Server Nat Nat Nat where
  airplaneRooms := exServer.airplaneRooms
  airplaneGames := exServer.airplaneGames
  rpsRooms := ⟨[("300", ⟨"1", "2", 7⟩)], by decide⟩
  rpsGames := GoMap.empty
  tictactoeRooms := GoMap.empty
  tictactoeGames := ⟨[("9", 9)], by decide⟩

/-- The Airplane room table that holds every identifier `getRandomInt(1000000)`
can give, built by storing a room under each of them in turn. -/
def fullRooms : GoMap AirplaneRoom :=
  (List.finRange 1000000).foldl
    (fun m r => m.set (getRandomInt 1000000 r) exAirplaneRoom) GoMap.empty

/-- The server `exServer` with the full Airplane room table. -/
def fullServer : Server Nat Nat Nat := { exServer with airplaneRooms := fullRooms }

/-- The zone UTC. -/
def exUTC : Location := ⟨fun _ => ⟨0, -9223372036854775808, 9223372036854775807⟩⟩

/-- The zone of London around the spring of 2019: offset 0 before 2019-03-31
01:00 UTC (instant 1553994000), one hour from then on. -/
def exLondon : Location :=
  ⟨fun t => if t < 1553994000 then ⟨0, -9223372036854775808, 1553994000⟩
    else ⟨3600, 1553994000, 9223372036854775807⟩⟩

/-! ## Lemmas on maps -/

namespace GoMap

variable {V : Type}

theorem lookup_cons_eq (k a : String) (b : V) (l : List (String × V)) :
    List.lookup k ((a, b) :: l) = if k = a then some b else List.lookup k l := by
  by_cases h : k = a
  · subst h; simp [List.lookup_cons]
  · have hb : (k == a) = false := by simpa using h
    simp [List.lookup_cons, hb, h]

theorem lookup_filter_self (l : List (String × V)) (k : String) :
    List.lookup k (l.filter (fun e => e.1 != k)) = none := by
  induction l with
  | nil => rfl
  | cons e l ih =>
    obtain ⟨a, b⟩ := e
    by_cases h : a = k
    · simp [List.filter_cons, h, ih]
    · have h2 : ¬ k = a := fun h3 => h h3.symm
      simp [List.filter_cons, h, lookup_cons_eq, h2, ih]

theorem lookup_filter_ne (l : List (String × V)) (k x : String) (hx : x ≠ k) :
    List.lookup x (l.filter (fun e => e.1 != k)) = List.lookup x l := by
  induction l with
  | nil => rfl
  | cons e l ih =>
    obtain ⟨a, b⟩ := e
    by_cases h : a = k
    · subst h
      simp [List.filter_cons, lookup_cons_eq, hx, ih]
    · by_cases h3 : x = a
      · simp [List.filter_cons, h, lookup_cons_eq, h3]
      · simp [List.filter_cons, h, lookup_cons_eq, h3, ih]

theorem get?_delete_self (m : GoMap V) (k : String) : (m.delete k).get? k = none :=
  lookup_filter_self m.entries k

theorem get?_delete_ne (m : GoMap V) (k x : String) (hx : x ≠ k) :
    (m.delete k).get? x = m.get? x :=
  lookup_filter_ne m.entries k x hx

theorem get?_delete (m : GoMap V) (k x : String) :
    (m.delete k).get? x = if x = k then none else m.get? x := by
  by_cases h : x = k
  · subst h; simp [get?_delete_self]
  · simp [h, get?_delete_ne m k x h]

theorem get?_set_self (m : GoMap V) (k : String) (v : V) : (m.set k v).get? k = some v := by
  simp [get?, set, lookup_cons_eq]

theorem get?_set_ne (m : GoMap V) (k x : String) (v : V) (hx : x ≠ k) :
    (m.set k v).get? x = m.get? x := by
  simp [get?, set, lookup_cons_eq, hx, lookup_filter_ne m.entries k x hx]

theorem lookup_eq_none_iff (l : List (String × V)) (k : String) :
    List.lookup k l = none ↔ k ∉ l.map Prod.fst := by
  induction l with
  | nil => simp
  | cons e l ih =>
    obtain ⟨a, b⟩ := e
    by_cases h : k = a
    · simp [lookup_cons_eq, h]
    · simp [lookup_cons_eq, h, ih]

theorem lookup_eq_some_iff (l : List (String × V)) (hl : (l.map Prod.fst).Nodup)
    (k : String) (v : V) : List.lookup k l = some v ↔ (k, v) ∈ l := by
  induction l with
  | nil => simp
  | cons e l ih =>
    obtain ⟨a, b⟩ := e
    rw [List.map_cons, List.nodup_cons] at hl
    by_cases h : k = a
    · subst h
      have hnot : ∀ w, (k, w) ∉ l := fun w hw => hl.1 (List.mem_map.2 ⟨(k, w), hw, rfl⟩)
      simp [lookup_cons_eq, hnot]
      exact eq_comm
    · simp [lookup_cons_eq, h, ih hl.2]

theorem contains_iff_mem_keys (m : GoMap V) (k : String) :
    m.contains k = true ↔ k ∈ m.keys := by
  unfold contains get? keys
  rw [← not_iff_not, ← lookup_eq_none_iff]
  cases List.lookup k m.entries <;> simp

theorem get?_eq_some_iff (m : GoMap V) (k : String) (v : V) :
    m.get? k = some v ↔ (k, v) ∈ m.entries :=
  lookup_eq_some_iff m.entries m.nodup k v

end GoMap


/-! ## Lemmas on the sweep -/

section Sweep

variable {R G : Type} (expire : R → Time) (clock : Nat → Time)

theorem mem_removedKeys (k : Nat) (l : List (String × R)) (x : String) :
    x ∈ removedKeys expire clock k l ↔
      ∃ i r, l[i]? = some (x, r) ∧ (clock (k + i)).After (expire r) = true := by
  induction l generalizing k with
  | nil => simp [removedKeys]
  | cons e l ih =>
    obtain ⟨a, b⟩ := e
    have key : x ∈ removedKeys expire clock k ((a, b) :: l) ↔
        (x = a ∧ (clock k).After (expire b) = true) ∨
          x ∈ removedKeys expire clock (k + 1) l := by
      by_cases h : (clock k).After (expire b) = true
      · simp [removedKeys, h]
      · simp [removedKeys, h]
    rw [key, ih]
    constructor
    · rintro (⟨rfl, h⟩ | ⟨i, r, hi, h⟩)
      · exact ⟨0, b, by simp, h⟩
      · refine ⟨i + 1, r, by simpa using hi, ?_⟩
        have : k + (i + 1) = k + 1 + i := by omega
        rw [this]; exact h
    · rintro ⟨i, r, hi, h⟩
      cases i with
      | zero =>
        simp at hi
        left
        exact ⟨hi.1.symm, by rw [hi.2]; simpa using h⟩
      | succ j =>
        right
        refine ⟨j, r, by simpa using hi, ?_⟩
        have : k + 1 + j = k + (j + 1) := by omega
        rw [this]; exact h

theorem sweepLoop_fst_get? (k : Nat) (l : List (String × R)) (p : GoMap R × GoMap G)
    (x : String) :
    (sweepLoop expire clock k l p).1.get? x =
      if x ∈ removedKeys expire clock k l then none else p.1.get? x := by
  induction l generalizing k p with
  | nil => simp [sweepLoop, removedKeys]
  | cons e l ih =>
    obtain ⟨a, b⟩ := e
    by_cases h : (clock k).After (expire b) = true
    · simp only [sweepLoop, removedKeys, h, if_true, ih, List.mem_cons, GoMap.get?_delete]
      by_cases hx : x = a
      · simp [hx]
      · simp [hx]
    · simp [sweepLoop, removedKeys, h, ih]

theorem sweepLoop_snd_get? (k : Nat) (l : List (String × R)) (p : GoMap R × GoMap G)
    (x : String) :
    (sweepLoop expire clock k l p).2.get? x =
      if x ∈ removedKeys expire clock k l then none else p.2.get? x := by
  induction l generalizing k p with
  | nil => simp [sweepLoop, removedKeys]
  | cons e l ih =>
    obtain ⟨a, b⟩ := e
    by_cases h : (clock k).After (expire b) = true
    · simp only [sweepLoop, removedKeys, h, if_true, ih, List.mem_cons, GoMap.get?_delete]
      by_cases hx : x = a
      · simp [hx]
      · simp [hx]
    · simp [sweepLoop, removedKeys, h, ih]

theorem sweep_fst_get? (rooms : GoMap R) (games : GoMap G) (x : String) :
    (sweep expire clock rooms games).1.get? x =
      if x ∈ removedKeys expire clock 0 rooms.entries then none else rooms.get? x :=
  sweepLoop_fst_get? expire clock 0 rooms.entries (rooms, games) x

theorem sweep_snd_get? (rooms : GoMap R) (games : GoMap G) (x : String) :
    (sweep expire clock rooms games).2.get? x =
      if x ∈ removedKeys expire clock 0 rooms.entries then none else games.get? x :=
  sweepLoop_snd_get? expire clock 0 rooms.entries (rooms, games) x

/-- A key is deleted by the sweep exactly when the room stored under it is
visited while the clock reads an instant after its expire. -/
theorem mem_removedKeys_sweep (rooms : GoMap R) (x : String) :
    x ∈ removedKeys expire clock 0 rooms.entries ↔
      ∃ i r, rooms.entries[i]? = some (x, r) ∧ (clock i).After (expire r) = true := by
  rw [mem_removedKeys]
  simp

/-- An entry of a map sits at exactly one position of the visiting order. -/
theorem GoMap.exists_index {V : Type} (m : GoMap V) (x : String) (v : V)
    (h : m.get? x = some v) : ∃ i : Nat, m.entries[i]? = some (x, v) := by
  rw [GoMap.get?_eq_some_iff] at h
  rcases List.getElem_of_mem h with ⟨i, hi, he⟩
  exact ⟨i, by rw [List.getElem?_eq_getElem hi, he]⟩

/-- The value met at any position holding key `x` is the value stored under `x`. -/
theorem GoMap.get?_of_index {V : Type} (m : GoMap V) (x : String) (v : V) (i : Nat)
    (h : m.entries[i]? = some (x, v)) : m.get? x = some v := by
  rw [GoMap.get?_eq_some_iff]
  exact (List.mem_iff_getElem?.2 ⟨i, h⟩)

end Sweep


/-! ## Each sweep is the generic sweep on its own pair of tables -/

section Bridge

variable {AG RG TG : Type} (clock : Nat → Time)

theorem airplane_removeExpiredRoomLoop_eq (k : Nat) (l : List (String × AirplaneRoom))
    (s : Server AG RG TG) :
    AirplaneRoom.removeExpiredRoomLoop clock k l s =
      { s with
        airplaneRooms :=
          (sweepLoop AirplaneRoom.expire clock k l (s.airplaneRooms, s.airplaneGames)).1,
        airplaneGames :=
          (sweepLoop AirplaneRoom.expire clock k l (s.airplaneRooms, s.airplaneGames)).2 } := by
  induction l generalizing k s with
  | nil => rfl
  | cons e l ih =>
    obtain ⟨a, b⟩ := e
    by_cases h : (clock k).After b.expire = true
    · simp [AirplaneRoom.removeExpiredRoomLoop, sweepLoop, h, ih]
    · simp [AirplaneRoom.removeExpiredRoomLoop, sweepLoop, h, ih]

theorem rps_removeExpiredRoomLoop_eq (k : Nat) (l : List (String × RPSRoom))
    (s : Server AG RG TG) :
    RPSRoom.removeExpiredRoomLoop clock k l s =
      { s with
        rpsRooms := (sweepLoop RPSRoom.expire clock k l (s.rpsRooms, s.rpsGames)).1,
        rpsGames := (sweepLoop RPSRoom.expire clock k l (s.rpsRooms, s.rpsGames)).2 } := by
  induction l generalizing k s with
  | nil => rfl
  | cons e l ih =>
    obtain ⟨a, b⟩ := e
    by_cases h : (clock k).After b.expire = true
    · simp [RPSRoom.removeExpiredRoomLoop, sweepLoop, h, ih]
    · simp [RPSRoom.removeExpiredRoomLoop, sweepLoop, h, ih]

theorem tictactoe_removeExpiredRoomLoop_eq (k : Nat)
    (l : List (String × TicTacToeBoxRoom)) (s : Server AG RG TG) :
    TicTacToeBoxRoom.removeExpiredRoomLoop clock k l s =
      { s with
        tictactoeRooms :=
          (sweepLoop TicTacToeBoxRoom.expire clock k l (s.tictactoeRooms, s.tictactoeGames)).1,
        tictactoeGames :=
          (sweepLoop TicTacToeBoxRoom.expire clock k l
            (s.tictactoeRooms, s.tictactoeGames)).2 } := by
  induction l generalizing k s with
  | nil => rfl
  | cons e l ih =>
    obtain ⟨a, b⟩ := e
    by_cases h : (clock k).After b.expire = true
    · simp [TicTacToeBoxRoom.removeExpiredRoomLoop, sweepLoop, h, ih]
    · simp [TicTacToeBoxRoom.removeExpiredRoomLoop, sweepLoop, h, ih]

theorem airplane_removeExpiredRoom_eq (room : AirplaneRoom) (s : Server AG RG TG) :
    room.removeExpiredRoom clock s =
      { s with
        airplaneRooms := (sweep AirplaneRoom.expire clock s.airplaneRooms s.airplaneGames).1,
        airplaneGames := (sweep AirplaneRoom.expire clock s.airplaneRooms s.airplaneGames).2 } :=
  airplane_removeExpiredRoomLoop_eq clock 0 s.airplaneRooms.entries s

theorem rps_removeExpiredRoom_eq (room : RPSRoom) (s : Server AG RG TG) :
    room.removeExpiredRoom clock s =
      { s with
        rpsRooms := (sweep RPSRoom.expire clock s.rpsRooms s.rpsGames).1,
        rpsGames := (sweep RPSRoom.expire clock s.rpsRooms s.rpsGames).2 } :=
  rps_removeExpiredRoomLoop_eq clock 0 s.rpsRooms.entries s

theorem tictactoe_removeExpiredRoom_eq (room : TicTacToeBoxRoom)
    (s : Server AG RG TG) :
    room.removeExpiredRoom clock s =
      { s with
        tictactoeRooms :=
          (sweep TicTacToeBoxRoom.expire clock s.tictactoeRooms s.tictactoeGames).1,
        tictactoeGames :=
          (sweep TicTacToeBoxRoom.expire clock s.tictactoeRooms s.tictactoeGames).2 } :=
  tictactoe_removeExpiredRoomLoop_eq clock 0 s.tictactoeRooms.entries s

end Bridge


/-! ## Consequences of the sweep characterisation -/

section SweepFacts

variable {R G : Type} (expire : R → Time) (clock : Nat → Time)

theorem GoMap.not_mem_keys_iff {V : Type} (m : GoMap V) (x : String) :
    x ∉ m.keys ↔ m.get? x = none :=
  (GoMap.lookup_eq_none_iff m.entries x).symm

theorem GoMap.mem_keys_iff {V : Type} (m : GoMap V) (x : String) :
    x ∈ m.keys ↔ ∃ v, m.get? x = some v := by
  rw [← not_iff_not, GoMap.not_mem_keys_iff]
  cases m.get? x <;> simp

/-- A room that survives the sweep was visited while the clock did not read
an instant after its expire. -/
theorem sweep_survivor (rooms : GoMap R) (games : GoMap G) (x : String) (r : R)
    (h : (sweep expire clock rooms games).1.get? x = some r) :
    ∃ i : Nat, rooms.entries[i]? = some (x, r) ∧ (clock i).After (expire r) = false := by
  rw [sweep_fst_get?] at h
  by_cases hx : x ∈ removedKeys expire clock 0 rooms.entries
  · simp [hx] at h
  · simp only [hx, if_false] at h
    obtain ⟨i, hi⟩ := GoMap.exists_index rooms x r h
    refine ⟨i, hi, ?_⟩
    cases hA : (clock i).After (expire r) with
    | false => rfl
    | true => exact absurd ((mem_removedKeys_sweep expire clock rooms x).2 ⟨i, r, hi, hA⟩) hx

/-- A key that the sweep took out of the room table is not in the game table
afterwards. -/
theorem sweep_no_orphan (rooms : GoMap R) (games : GoMap G) (x : String)
    (h1 : x ∈ rooms.keys) (h2 : x ∉ (sweep expire clock rooms games).1.keys) :
    x ∉ (sweep expire clock rooms games).2.keys := by
  rw [GoMap.not_mem_keys_iff] at h2 ⊢
  rw [sweep_fst_get?] at h2
  rw [sweep_snd_get?]
  by_cases hx : x ∈ removedKeys expire clock 0 rooms.entries
  · simp [hx]
  · simp only [hx, if_false] at h2
    exact absurd ((GoMap.not_mem_keys_iff rooms x).2 h2) (not_not.2 h1)

/-- The sweep keeps the two key sets equal. -/
theorem sweep_pairing (rooms : GoMap R) (games : GoMap G)
    (h : ∀ x, x ∈ rooms.keys ↔ x ∈ games.keys) (x : String) :
    x ∈ (sweep expire clock rooms games).1.keys ↔
      x ∈ (sweep expire clock rooms games).2.keys := by
  rw [← not_iff_not, GoMap.not_mem_keys_iff, GoMap.not_mem_keys_iff,
    sweep_fst_get?, sweep_snd_get?]
  by_cases hx : x ∈ removedKeys expire clock 0 rooms.entries
  · simp [hx]
  · simp only [hx, if_false]
    rw [← GoMap.not_mem_keys_iff, ← GoMap.not_mem_keys_iff, not_iff_not]
    exact h x

theorem lt_length_of_getElem? {α : Type} (l : List α) (i : Nat) (v : α)
    (h : l[i]? = some v) : i < l.length := by
  by_contra hn
  rw [List.getElem?_eq_none (by omega)] at h
  cases h

/-- A room that every reading of the clock finds expired is deleted together
with its game state. -/
theorem sweep_removes (rooms : GoMap R) (games : GoMap G) (x : String) (r : R)
    (h : rooms.get? x = some r)
    (hA : ∀ k, k < rooms.entries.length → (clock k).After (expire r) = true) :
    (sweep expire clock rooms games).1.get? x = none ∧
      (sweep expire clock rooms games).2.get? x = none := by
  obtain ⟨i, hi⟩ := GoMap.exists_index rooms x r h
  have hx : x ∈ removedKeys expire clock 0 rooms.entries :=
    (mem_removedKeys_sweep expire clock rooms x).2
      ⟨i, r, hi, hA i (lt_length_of_getElem? _ i _ hi)⟩
  rw [sweep_fst_get?, sweep_snd_get?]
  simp [hx]

/-- A room that no reading of the clock finds expired is kept, and so is its
game state. -/
theorem sweep_keeps (rooms : GoMap R) (games : GoMap G) (x : String) (r : R)
    (h : rooms.get? x = some r)
    (hA : ∀ k, k < rooms.entries.length → (clock k).After (expire r) = false) :
    (sweep expire clock rooms games).1.get? x = some r ∧
      (sweep expire clock rooms games).2.get? x = games.get? x := by
  have hx : x ∉ removedKeys expire clock 0 rooms.entries := by
    intro hmem
    obtain ⟨i, r2, hi, hT⟩ := (mem_removedKeys_sweep expire clock rooms x).1 hmem
    have h2 := GoMap.get?_of_index rooms x r2 i hi
    rw [h] at h2
    cases h2
    rw [hA i (lt_length_of_getElem? _ i _ hi)] at hT
    cases hT
  rw [sweep_fst_get?, sweep_snd_get?]
  simp [hx, h]

end SweepFacts


/-! ## Lemmas on decimal strings -/

theorem toDigitsCore_append (b : Nat) (f n : Nat) (ds : List Char) :
    Nat.toDigitsCore b f n ds = Nat.toDigitsCore b f n [] ++ ds := by
  induction f generalizing n ds with
  | zero => simp [Nat.toDigitsCore]
  | succ f ih =>
    simp only [Nat.toDigitsCore]
    by_cases h : n / b = 0
    · simp [h]
    · simp only [h, if_false]
      rw [ih (n / b) (Nat.digitChar (n % b) :: ds), ih (n / b) [Nat.digitChar (n % b)]]
      simp

theorem toDigitsCore_fuel (f g n : Nat) (ds : List Char) (hf : n < f) (hg : n < g) :
    Nat.toDigitsCore 10 f n ds = Nat.toDigitsCore 10 g n ds := by
  induction f generalizing g n ds with
  | zero => omega
  | succ f ih =>
    cases g with
    | zero => omega
    | succ g =>
      simp only [Nat.toDigitsCore]
      by_cases h : n / 10 = 0
      · simp [h]
      · simp only [h, if_false]
        have : n / 10 < n := Nat.div_lt_self (by omega) (by norm_num)
        exact ih g (n / 10) _ (by omega) (by omega)

theorem toDigits_lt_ten (n : Nat) (h : n < 10) : Nat.toDigits 10 n = [Nat.digitChar n] := by
  have h0 : n / 10 = 0 := Nat.div_eq_of_lt h
  have hm : n % 10 = n := Nat.mod_eq_of_lt h
  simp [Nat.toDigits, Nat.toDigitsCore, h0, hm]

theorem toDigits_ten_le (n : Nat) (h : 10 ≤ n) :
    Nat.toDigits 10 n = Nat.toDigits 10 (n / 10) ++ [Nat.digitChar (n % 10)] := by
  have h0 : n / 10 ≠ 0 := by
    have := Nat.div_pos h (by norm_num : 0 < 10)
    omega
  have hlt : n / 10 < n := Nat.div_lt_self (by omega) (by norm_num)
  unfold Nat.toDigits
  rw [Nat.toDigitsCore]
  simp only [h0, if_false]
  rw [toDigitsCore_append, toDigitsCore_fuel n (n / 10 + 1) (n / 10) [] hlt (by omega)]

theorem digitChar_value (d : Nat) (h : d < 10) : (Nat.digitChar d).toNat - '0'.toNat = d := by
  interval_cases d <;> rfl

theorem digitChar_isDigit (d : Nat) (h : d < 10) : (Nat.digitChar d).isDigit = true := by
  interval_cases d <;> rfl

theorem digitChar_ne_zero (d : Nat) (h : d < 10) (h0 : d ≠ 0) : Nat.digitChar d ≠ '0' := by
  interval_cases d <;> first | exact absurd rfl h0 | decide

theorem decimalValue_toDigits (n : Nat) : decimalValue (Nat.toDigits 10 n) = n := by
  induction n using Nat.strong_induction_on with
  | _ n ih =>
    by_cases h : n < 10
    · rw [toDigits_lt_ten n h]
      have hv := digitChar_value n h
      simp only [decimalValue, List.foldl_cons, List.foldl_nil]
      omega
    · have hlt : n / 10 < n := Nat.div_lt_self (by omega) (by norm_num)
      rw [toDigits_ten_le n (by omega)]
      have := ih (n / 10) hlt
      unfold decimalValue at this ⊢
      rw [List.foldl_append, this]
      simp only [List.foldl_cons, List.foldl_nil]
      rw [digitChar_value _ (Nat.mod_lt _ (by norm_num))]
      omega

theorem toDigits_all_digits (n : Nat) : ∀ c ∈ Nat.toDigits 10 n, c.isDigit = true := by
  induction n using Nat.strong_induction_on with
  | _ n ih =>
    by_cases h : n < 10
    · rw [toDigits_lt_ten n h]
      intro c hc
      simp at hc
      rw [hc]; exact digitChar_isDigit n h
    · have hlt : n / 10 < n := Nat.div_lt_self (by omega) (by norm_num)
      rw [toDigits_ten_le n (by omega)]
      intro c hc
      rcases List.mem_append.1 hc with hc | hc
      · exact ih (n / 10) hlt c hc
      · simp at hc
        rw [hc]; exact digitChar_isDigit _ (Nat.mod_lt _ (by norm_num))

theorem toDigits_head (n : Nat) (hn : n ≠ 0) :
    ∃ c rest, Nat.toDigits 10 n = c :: rest ∧ c ≠ '0' := by
  induction n using Nat.strong_induction_on with
  | _ n ih =>
    by_cases h : n < 10
    · exact ⟨Nat.digitChar n, [], toDigits_lt_ten n h, digitChar_ne_zero n h hn⟩
    · have hlt : n / 10 < n := Nat.div_lt_self (by omega) (by norm_num)
      have h0 : n / 10 ≠ 0 := by
        have := Nat.div_pos (by omega : 10 ≤ n) (by norm_num : 0 < 10)
        omega
      obtain ⟨c, rest, hc, hne⟩ := ih (n / 10) hlt h0
      exact ⟨c, rest ++ [Nat.digitChar (n % 10)], by rw [toDigits_ten_le n (by omega), hc]; rfl, hne⟩

/-! ## Claims -/

section Claims

variable {AG RG TG : Type}

/-- C1, as stated, fails: at instant 9 the Airplane table of `exServer` holds
under `"200"` only a room whose expire (0) has passed, and `isRoomExist`
still answers true. -/
theorem isRoomExist_ignores_expiry :
    exAirplaneRoom.isRoomExist exServer "200" = true ∧
      exServer.airplaneRooms.get? "200" = some ⟨"23", "42", 0⟩ ∧
      Time.After 9 (0 : Time) = true ∧
      ¬ (∃ r : AirplaneRoom, exServer.airplaneRooms.get? "200" = some r ∧
          Time.After 9 r.expire = false) := by
  refine ⟨by decide, by decide, by decide, ?_⟩
  rintro ⟨r, hr, hA⟩
  have h2 : exServer.airplaneRooms.get? "200" = some ⟨"23", "42", 0⟩ := by decide
  rw [h2] at hr
  cases hr
  revert hA
  decide

/-- C1, amended: in each of the three registries `isRoomExist(roomid)` is true
exactly when the room table holds an entry under `roomid`, whatever the
expire of that entry. -/
theorem isRoomExist_iff_key (s : Server AG RG TG) (a : AirplaneRoom) (p : RPSRoom)
    (t : TicTacToeBoxRoom) (roomid : String) :
    (a.isRoomExist s roomid = true ↔ ∃ r, s.airplaneRooms.get? roomid = some r) ∧
    (p.isRoomExist s roomid = true ↔ ∃ r, s.rpsRooms.get? roomid = some r) ∧
    (t.isRoomExist s roomid = true ↔ ∃ r, s.tictactoeRooms.get? roomid = some r) := by
  refine ⟨?_, ?_, ?_⟩
  · unfold AirplaneRoom.isRoomExist GoMap.contains
    cases s.airplaneRooms.get? roomid <;> simp
  · unfold RPSRoom.isRoomExist GoMap.contains
    cases s.rpsRooms.get? roomid <;> simp
  · unfold TicTacToeBoxRoom.isRoomExist GoMap.contains
    cases s.tictactoeRooms.get? roomid <;> simp


theorem GoMap.replacesNothing_of_not_mem {V : Type} (m : GoMap V) (k : String) (v : V)
    (hk : k ∉ m.keys) : m.ReplacesNothing k v := by
  have hf : m.entries.filter (fun e => e.1 != k) = m.entries := by
    rw [List.filter_eq_self]
    intro e he
    have : e.1 ≠ k := fun h => hk (List.mem_map.2 ⟨e, he, h⟩)
    simpa using this
  refine ⟨?_, (m.set k v).nodup, ?_⟩
  · intro x r hx
    have hne : x ≠ k := by
      rintro rfl
      rw [(GoMap.not_mem_keys_iff m x).1 hk] at hx
      cases hx
    rw [GoMap.get?_set_ne m k x v hne]
    exact hx
  · simp [GoMap.keys, GoMap.set, hf]

theorem airplane_generateRoomidLoop_fresh (room : AirplaneRoom) (s : Server AG RG TG)
    (rand : Nat → Fin 1000000) (fuel index : Nat) (roomid : String) (n : Nat)
    (h : AirplaneRoom.generateRoomidLoop room s rand fuel index = some (roomid, n)) :
    room.isRoomExist s roomid = false := by
  induction fuel generalizing index with
  | zero => simp [AirplaneRoom.generateRoomidLoop] at h
  | succ fuel ih =>
    simp only [AirplaneRoom.generateRoomidLoop] at h
    cases hE : room.isRoomExist s (getRandomInt 1000000 (rand index)) with
    | false =>
      simp [hE] at h
      rw [← h.1]; exact hE
    | true =>
      simp [hE] at h
      exact ih _ h

theorem rps_generateRoomidLoop_fresh (room : RPSRoom) (s : Server AG RG TG)
    (rand : Nat → Fin 1000000) (fuel index : Nat) (roomid : String) (n : Nat)
    (h : RPSRoom.generateRoomidLoop room s rand fuel index = some (roomid, n)) :
    room.isRoomExist s roomid = false := by
  induction fuel generalizing index with
  | zero => simp [RPSRoom.generateRoomidLoop] at h
  | succ fuel ih =>
    simp only [RPSRoom.generateRoomidLoop] at h
    cases hE : room.isRoomExist s (getRandomInt 1000000 (rand index)) with
    | false =>
      simp [hE] at h
      rw [← h.1]; exact hE
    | true =>
      simp [hE] at h
      exact ih _ h

theorem tictactoe_generateRoomidLoop_fresh (room : TicTacToeBoxRoom)
    (s : Server AG RG TG) (rand : Nat → Fin 1000000) (fuel index : Nat) (roomid : String)
    (n : Nat)
    (h : TicTacToeBoxRoom.generateRoomidLoop room s rand fuel index = some (roomid, n)) :
    room.isRoomExist s roomid = false := by
  induction fuel generalizing index with
  | zero => simp [TicTacToeBoxRoom.generateRoomidLoop] at h
  | succ fuel ih =>
    simp only [TicTacToeBoxRoom.generateRoomidLoop] at h
    cases hE : room.isRoomExist s (getRandomInt 1000000 (rand index)) with
    | false =>
      simp [hE] at h
      rw [← h.1]; exact hE
    | true =>
      simp [hE] at h
      exact ih _ h

theorem airplane_generateRoomidLoop_returns (room : AirplaneRoom) (s : Server AG RG TG)
    (rand : Nat → Fin 1000000) (fuel index j : Nat) (hj : j < fuel)
    (h : room.isRoomExist s (getRandomInt 1000000 (rand (index + j))) = false) :
    ∃ roomid n, AirplaneRoom.generateRoomidLoop room s rand fuel index = some (roomid, n) := by
  induction fuel generalizing index j with
  | zero => omega
  | succ fuel ih =>
    simp only [AirplaneRoom.generateRoomidLoop]
    cases hE : room.isRoomExist s (getRandomInt 1000000 (rand index)) with
    | false => exact ⟨getRandomInt 1000000 (rand index), index + 1, by simp⟩
    | true =>
      cases j with
      | zero => rw [Nat.add_zero, hE] at h; cases h
      | succ j =>
        have h2 : index + (j + 1) = index + 1 + j := by omega
        rw [h2] at h
        simpa using ih (index + 1) j (by omega) h

theorem rps_generateRoomidLoop_returns (room : RPSRoom) (s : Server AG RG TG)
    (rand : Nat → Fin 1000000) (fuel index j : Nat) (hj : j < fuel)
    (h : room.isRoomExist s (getRandomInt 1000000 (rand (index + j))) = false) :
    ∃ roomid n, RPSRoom.generateRoomidLoop room s rand fuel index = some (roomid, n) := by
  induction fuel generalizing index j with
  | zero => omega
  | succ fuel ih =>
    simp only [RPSRoom.generateRoomidLoop]
    cases hE : room.isRoomExist s (getRandomInt 1000000 (rand index)) with
    | false => exact ⟨getRandomInt 1000000 (rand index), index + 1, by simp⟩
    | true =>
      cases j with
      | zero => rw [Nat.add_zero, hE] at h; cases h
      | succ j =>
        have h2 : index + (j + 1) = index + 1 + j := by omega
        rw [h2] at h
        simpa using ih (index + 1) j (by omega) h

theorem tictactoe_generateRoomidLoop_returns (room : TicTacToeBoxRoom) (s : Server AG RG TG)
    (rand : Nat → Fin 1000000) (fuel index j : Nat) (hj : j < fuel)
    (h : room.isRoomExist s (getRandomInt 1000000 (rand (index + j))) = false) :
    ∃ roomid n, TicTacToeBoxRoom.generateRoomidLoop room s rand fuel index = some (roomid, n) := by
  induction fuel generalizing index j with
  | zero => omega
  | succ fuel ih =>
    simp only [TicTacToeBoxRoom.generateRoomidLoop]
    cases hE : room.isRoomExist s (getRandomInt 1000000 (rand index)) with
    | false => exact ⟨getRandomInt 1000000 (rand index), index + 1, by simp⟩
    | true =>
      cases j with
      | zero => rw [Nat.add_zero, hE] at h; cases h
      | succ j =>
        have h2 : index + (j + 1) = index + 1 + j := by omega
        rw [h2] at h
        simpa using ih (index + 1) j (by omega) h

theorem GoMap.not_mem_keys_of_contains_false {V : Type} (m : GoMap V) (x : String)
    (h : (if m.contains x then true else false) = false) : x ∉ m.keys := by
  rw [GoMap.not_mem_keys_iff]
  unfold GoMap.contains at h
  cases hg : m.get? x with
  | none => rfl
  | some v => simp [hg] at h

/-- C2: in each of the three registries, whenever `generateRoomid` returns, the
returned roomid is not a key of the room table of that registry
(`isRoomExist` of it is false), so storing a new room under it replaces no
room and the keys stay pairwise distinct.  The loop does return as soon as
one draw is not a key: if draw `k` is not a key, any fuel above `k` gives a
result. -/
theorem generateRoomid_fresh (s : Server AG RG TG) (a : AirplaneRoom) (p : RPSRoom)
    (t : TicTacToeBoxRoom) (rand : Nat → Fin 1000000) (fuel : Nat) (roomid : String)
    (n : Nat) :
    (a.generateRoomid s rand fuel = some (roomid, n) →
      a.isRoomExist s roomid = false ∧ roomid ∉ s.airplaneRooms.keys ∧
        ∀ newRoom, s.airplaneRooms.ReplacesNothing roomid newRoom) ∧
    (p.generateRoomid s rand fuel = some (roomid, n) →
      p.isRoomExist s roomid = false ∧ roomid ∉ s.rpsRooms.keys ∧
        ∀ newRoom, s.rpsRooms.ReplacesNothing roomid newRoom) ∧
    (t.generateRoomid s rand fuel = some (roomid, n) →
      t.isRoomExist s roomid = false ∧ roomid ∉ s.tictactoeRooms.keys ∧
        ∀ newRoom, s.tictactoeRooms.ReplacesNothing roomid newRoom) ∧
    (∀ k, k < fuel →
      (a.isRoomExist s (getRandomInt 1000000 (rand k)) = false →
        ∃ id m, a.generateRoomid s rand fuel = some (id, m)) ∧
      (p.isRoomExist s (getRandomInt 1000000 (rand k)) = false →
        ∃ id m, p.generateRoomid s rand fuel = some (id, m)) ∧
      (t.isRoomExist s (getRandomInt 1000000 (rand k)) = false →
        ∃ id m, t.generateRoomid s rand fuel = some (id, m))) := by
  refine ⟨fun h => ?_, fun h => ?_, fun h => ?_, fun k hk => ⟨fun h => ?_, fun h => ?_,
    fun h => ?_⟩⟩
  · have hE := airplane_generateRoomidLoop_fresh a s rand fuel 0 roomid n h
    have hk := GoMap.not_mem_keys_of_contains_false s.airplaneRooms roomid hE
    exact ⟨hE, hk, fun v => GoMap.replacesNothing_of_not_mem _ _ v hk⟩
  · have hE := rps_generateRoomidLoop_fresh p s rand fuel 0 roomid n h
    have hk := GoMap.not_mem_keys_of_contains_false s.rpsRooms roomid hE
    exact ⟨hE, hk, fun v => GoMap.replacesNothing_of_not_mem _ _ v hk⟩
  · have hE := tictactoe_generateRoomidLoop_fresh t s rand fuel 0 roomid n h
    have hk := GoMap.not_mem_keys_of_contains_false s.tictactoeRooms roomid hE
    exact ⟨hE, hk, fun v => GoMap.replacesNothing_of_not_mem _ _ v hk⟩
  · exact airplane_generateRoomidLoop_returns a s rand fuel 0 k hk (by rwa [Nat.zero_add])
  · exact rps_generateRoomidLoop_returns p s rand fuel 0 k hk (by rwa [Nat.zero_add])
  · exact tictactoe_generateRoomidLoop_returns t s rand fuel 0 k hk (by rwa [Nat.zero_add])

/-- C2 at `exServer`: the first draw `"100"` is taken, the second draw `"300"`
is returned by all three registries and is a key of none of the room tables. -/
theorem generateRoomid_fresh_witness :
    (exAirplaneRoom.generateRoomid exServer exRand 5 = some ("300", 2) ∧
      exRPSRoom.generateRoomid exServer exRand 5 = some ("300", 2) ∧
      exTicTacToeBoxRoom.generateRoomid exServer exRand 5 = some ("300", 2)) ∧
    (exAirplaneRoom.isRoomExist exServer "300" = false ∧
      "300" ∉ exServer.airplaneRooms.keys ∧
      ∀ newRoom, exServer.airplaneRooms.ReplacesNothing "300" newRoom) ∧
    (exRPSRoom.isRoomExist exServer "300" = false ∧
      "300" ∉ exServer.rpsRooms.keys ∧
      ∀ newRoom, exServer.rpsRooms.ReplacesNothing "300" newRoom) ∧
    (exTicTacToeBoxRoom.isRoomExist exServer "300" = false ∧
      "300" ∉ exServer.tictactoeRooms.keys ∧
      ∀ newRoom, exServer.tictactoeRooms.ReplacesNothing "300" newRoom) :=
  ⟨⟨by decide, by decide, by decide⟩,
    (generateRoomid_fresh exServer exAirplaneRoom exRPSRoom exTicTacToeBoxRoom exRand 5
      "300" 2).1 (by decide),
    (generateRoomid_fresh exServer exAirplaneRoom exRPSRoom exTicTacToeBoxRoom exRand 5
      "300" 2).2.1 (by decide),
    (generateRoomid_fresh exServer exAirplaneRoom exRPSRoom exTicTacToeBoxRoom exRand 5
      "300" 2).2.2.1 (by decide)⟩


theorem sweep_sound {R G : Type} (expire : R → Time) (clock : Nat → Time)
    (rooms : GoMap R) (games : GoMap G) :
    SweepSound expire clock rooms (sweep expire clock rooms games).1
      (sweep expire clock rooms games).2 := by
  refine ⟨fun x r h => sweep_survivor expire clock rooms games x r h, ?_,
    fun x h1 h2 => sweep_no_orphan expire clock rooms games x h1 h2⟩
  intro now hnow x r h
  obtain ⟨i, _, hA⟩ := sweep_survivor expire clock rooms games x r h
  rw [hnow i] at hA
  exact hA

/-- C3, as stated, fails: sweeping the Airplane registry of `exServer` with a
clock that reads 5 in the first iteration and 10 in the second (and last)
leaves room `"100"`, whose expire 5 is before the last reading 10. -/
theorem removeExpiredRoom_leaves_expired :
    (exAirplaneRoom.removeExpiredRoom exClock exServer).airplaneRooms.get? "100" =
        some ⟨"17", "", 5⟩ ∧
      exServer.airplaneRooms.entries.length = 2 ∧
      (exClock 1).After (5 : Time) = true := by
  decide

/-- C3, amended: in each of the three registries, after `removeExpiredRoom`
every room left in the room table was visited while the clock did not read
an instant after its expire (so when the clock reads one and the same instant
during the whole sweep, no room left has its expire before that instant), and
every roomid taken out of the room table has no entry in the paired
game-state table. -/
theorem removeExpiredRoom_sound (s : Server AG RG TG) (a : AirplaneRoom) (p : RPSRoom)
    (t : TicTacToeBoxRoom) (clock : Nat → Time) :
    SweepSound AirplaneRoom.expire clock s.airplaneRooms
        (a.removeExpiredRoom clock s).airplaneRooms
        (a.removeExpiredRoom clock s).airplaneGames ∧
      SweepSound RPSRoom.expire clock s.rpsRooms
        (p.removeExpiredRoom clock s).rpsRooms (p.removeExpiredRoom clock s).rpsGames ∧
      SweepSound TicTacToeBoxRoom.expire clock s.tictactoeRooms
        (t.removeExpiredRoom clock s).tictactoeRooms
        (t.removeExpiredRoom clock s).tictactoeGames := by
  rw [airplane_removeExpiredRoom_eq, rps_removeExpiredRoom_eq,
    tictactoe_removeExpiredRoom_eq]
  exact ⟨sweep_sound _ _ _ _, sweep_sound _ _ _ _, sweep_sound _ _ _ _⟩

/-- C3, amended, at `exServer` with the clock that always reads 5: room `"100"`
(expire 5) is left and 5 is not after its expire. -/
theorem removeExpiredRoom_sound_witness :
    (exAirplaneRoom.removeExpiredRoom (fun _ => 5) exServer).airplaneRooms.get? "100" =
        some ⟨"17", "", 5⟩ ∧
      Time.After 5 (AirplaneRoom.expire ⟨"17", "", 5⟩) = false :=
  ⟨by decide,
    (removeExpiredRoom_sound exServer exAirplaneRoom exRPSRoom exTicTacToeBoxRoom
      (fun _ => 5)).1.2.1 5 (fun _ => rfl) "100" ⟨"17", "", 5⟩ (by decide)⟩

/-- C4: `removeExpiredRoom` preserves the pairing invariant: in each registry,
if the room table and the game-state table have the same keys before the
sweep, they have the same keys after it. -/
theorem removeExpiredRoom_pairing (s : Server AG RG TG) (a : AirplaneRoom) (p : RPSRoom)
    (t : TicTacToeBoxRoom) (clock : Nat → Time) :
    ((∀ x, x ∈ s.airplaneRooms.keys ↔ x ∈ s.airplaneGames.keys) →
      ∀ x, x ∈ (a.removeExpiredRoom clock s).airplaneRooms.keys ↔
        x ∈ (a.removeExpiredRoom clock s).airplaneGames.keys) ∧
    ((∀ x, x ∈ s.rpsRooms.keys ↔ x ∈ s.rpsGames.keys) →
      ∀ x, x ∈ (p.removeExpiredRoom clock s).rpsRooms.keys ↔
        x ∈ (p.removeExpiredRoom clock s).rpsGames.keys) ∧
    ((∀ x, x ∈ s.tictactoeRooms.keys ↔ x ∈ s.tictactoeGames.keys) →
      ∀ x, x ∈ (t.removeExpiredRoom clock s).tictactoeRooms.keys ↔
        x ∈ (t.removeExpiredRoom clock s).tictactoeGames.keys) := by
  rw [airplane_removeExpiredRoom_eq, rps_removeExpiredRoom_eq,
    tictactoe_removeExpiredRoom_eq]
  exact ⟨fun h x => sweep_pairing _ _ _ _ h x, fun h x => sweep_pairing _ _ _ _ h x,
    fun h x => sweep_pairing _ _ _ _ h x⟩

theorem exServer_paired (x : String) :
    (x ∈ exServer.airplaneRooms.keys ↔ x ∈ exServer.airplaneGames.keys) ∧
      (x ∈ exServer.rpsRooms.keys ↔ x ∈ exServer.rpsGames.keys) ∧
      (x ∈ exServer.tictactoeRooms.keys ↔ x ∈ exServer.tictactoeGames.keys) := by
  simp [exServer, GoMap.keys]

/-- C4 at `exServer`, whose tables are paired, swept with `exClock`: the key
sets agree afterwards in all three registries. -/
theorem removeExpiredRoom_pairing_witness :
    (∀ x, x ∈ exServer.airplaneRooms.keys ↔ x ∈ exServer.airplaneGames.keys) ∧
    (∀ x, x ∈ (exAirplaneRoom.removeExpiredRoom exClock exServer).airplaneRooms.keys ↔
      x ∈ (exAirplaneRoom.removeExpiredRoom exClock exServer).airplaneGames.keys) ∧
    (∀ x, x ∈ (exRPSRoom.removeExpiredRoom exClock exServer).rpsRooms.keys ↔
      x ∈ (exRPSRoom.removeExpiredRoom exClock exServer).rpsGames.keys) ∧
    (∀ x, x ∈ (exTicTacToeBoxRoom.removeExpiredRoom exClock exServer).tictactoeRooms.keys ↔
      x ∈ (exTicTacToeBoxRoom.removeExpiredRoom exClock exServer).tictactoeGames.keys) :=
  ⟨fun x => (exServer_paired x).1,
    (removeExpiredRoom_pairing exServer exAirplaneRoom exRPSRoom exTicTacToeBoxRoom
      exClock).1 (fun x => (exServer_paired x).1),
    (removeExpiredRoom_pairing exServer exAirplaneRoom exRPSRoom exTicTacToeBoxRoom
      exClock).2.1 (fun x => (exServer_paired x).2.1),
    (removeExpiredRoom_pairing exServer exAirplaneRoom exRPSRoom exTicTacToeBoxRoom
      exClock).2.2 (fun x => (exServer_paired x).2.2)⟩


theorem slotContract_switch (p1 p2 user : String) :
    SlotContract p1 p2 user
      (if user = p1 then "player1" else if user = p2 then "player2" else "") := by
  unfold SlotContract
  by_cases h1 : user = p1
  · subst h1; simp
  · by_cases h2 : user = p2
    · subst h2; simp [h1]
    · simp [h1, h2]

/-- C5: for a room of any of the three types and every token `user`,
`getPlayerNow(user)` is `"player1"` when `user` is the player1 of the room,
`"player2"` when `user` is its player2 and not its player1, the empty string
exactly when `user` is neither, and never anything else. -/
theorem getPlayerNow_contract (a : AirplaneRoom) (p : RPSRoom) (t : TicTacToeBoxRoom)
    (user : String) :
    SlotContract a.player1 a.player2 user (a.getPlayerNow user) ∧
      SlotContract p.player1 p.player2 user (p.getPlayerNow user) ∧
      SlotContract t.player1 t.player2 user (t.getPlayerNow user) :=
  ⟨slotContract_switch _ _ _, slotContract_switch _ _ _, slotContract_switch _ _ _⟩

/-- C5 on a full room with slots `"23"` and `"42"`: token `"42"` is in slot
player2 and token `"99"` is in no slot. -/
theorem getPlayerNow_contract_witness :
    AirplaneRoom.getPlayerNow ⟨"23", "42", 0⟩ "42" = "player2" ∧
      AirplaneRoom.getPlayerNow ⟨"23", "42", 0⟩ "99" = "" :=
  ⟨(getPlayerNow_contract ⟨"23", "42", 0⟩ exRPSRoom exTicTacToeBoxRoom "42").1.2.1
      (by decide) (by decide),
    ((getPlayerNow_contract ⟨"23", "42", 0⟩ exRPSRoom exTicTacToeBoxRoom "99").1.2.2.1).2
      ⟨by decide, by decide⟩⟩

/-- C6, as stated, fails: room `"100"` of `exServer` has expire 5; a sweep of
the Airplane registry while the clock reads 5 leaves the room and its game
state, and `isRoomExist("100")` is still true afterwards. -/
theorem removeExpiredRoom_keeps_expire_eq_now :
    exServer.airplaneRooms.get? "100" = some ⟨"17", "", 5⟩ ∧
      exServer.airplaneGames.get? "100" = some 1 ∧
      (exAirplaneRoom.removeExpiredRoom (fun _ => 5) exServer).airplaneRooms.get? "100" =
        some ⟨"17", "", 5⟩ ∧
      (exAirplaneRoom.removeExpiredRoom (fun _ => 5) exServer).airplaneGames.get? "100" =
        some 1 ∧
      exAirplaneRoom.isRoomExist (exAirplaneRoom.removeExpiredRoom (fun _ => 5) exServer)
        "100" = true := by
  decide

/-- C6, amended: in every registry, if the room table holds a room under
`roomid` whose expire is strictly before every instant the clock reads during
the sweep (in particular strictly before the one instant of a sweep at a fixed
time), then `removeExpiredRoom` removes the room and its paired game state,
and `isRoomExist(roomid)` is false afterwards. -/
theorem removeExpiredRoom_removes_past (s : Server AG RG TG) (clock : Nat → Time)
    (roomid : String) :
    (∀ (a r : AirplaneRoom), s.airplaneRooms.get? roomid = some r →
      (∀ k, k < s.airplaneRooms.entries.length → r.expire < clock k) →
      (a.removeExpiredRoom clock s).airplaneRooms.get? roomid = none ∧
        (a.removeExpiredRoom clock s).airplaneGames.get? roomid = none ∧
        a.isRoomExist (a.removeExpiredRoom clock s) roomid = false) ∧
    (∀ (p r : RPSRoom), s.rpsRooms.get? roomid = some r →
      (∀ k, k < s.rpsRooms.entries.length → r.expire < clock k) →
      (p.removeExpiredRoom clock s).rpsRooms.get? roomid = none ∧
        (p.removeExpiredRoom clock s).rpsGames.get? roomid = none ∧
        p.isRoomExist (p.removeExpiredRoom clock s) roomid = false) ∧
    (∀ (t r : TicTacToeBoxRoom), s.tictactoeRooms.get? roomid = some r →
      (∀ k, k < s.tictactoeRooms.entries.length → r.expire < clock k) →
      (t.removeExpiredRoom clock s).tictactoeRooms.get? roomid = none ∧
        (t.removeExpiredRoom clock s).tictactoeGames.get? roomid = none ∧
        t.isRoomExist (t.removeExpiredRoom clock s) roomid = false) := by
  refine ⟨fun a r h hlt => ?_, fun p r h hlt => ?_, fun t r h hlt => ?_⟩
  · have hA : ∀ k, k < s.airplaneRooms.entries.length →
        (clock k).After (AirplaneRoom.expire r) = true :=
      fun k hk => by simpa [Time.After] using hlt k hk
    have h2 := sweep_removes AirplaneRoom.expire clock s.airplaneRooms s.airplaneGames
      roomid r h hA
    rw [airplane_removeExpiredRoom_eq]
    exact ⟨h2.1, h2.2, by simp [AirplaneRoom.isRoomExist, GoMap.contains, h2.1]⟩
  · have hA : ∀ k, k < s.rpsRooms.entries.length →
        (clock k).After (RPSRoom.expire r) = true :=
      fun k hk => by simpa [Time.After] using hlt k hk
    have h2 := sweep_removes RPSRoom.expire clock s.rpsRooms s.rpsGames roomid r h hA
    rw [rps_removeExpiredRoom_eq]
    exact ⟨h2.1, h2.2, by simp [RPSRoom.isRoomExist, GoMap.contains, h2.1]⟩
  · have hA : ∀ k, k < s.tictactoeRooms.entries.length →
        (clock k).After (TicTacToeBoxRoom.expire r) = true :=
      fun k hk => by simpa [Time.After] using hlt k hk
    have h2 := sweep_removes TicTacToeBoxRoom.expire clock s.tictactoeRooms
      s.tictactoeGames roomid r h hA
    rw [tictactoe_removeExpiredRoom_eq]
    exact ⟨h2.1, h2.2, by simp [TicTacToeBoxRoom.isRoomExist, GoMap.contains, h2.1]⟩

/-- C6, amended, at `exServer`: room `"100"` has expire 5; a sweep of the
Airplane registry while the clock reads 6 removes it and its game state. -/
theorem removeExpiredRoom_removes_past_witness :
    exServer.airplaneRooms.get? "100" = some ⟨"17", "", 5⟩ ∧
      exServer.airplaneGames.get? "100" = some 1 ∧
      ((exAirplaneRoom.removeExpiredRoom (fun _ => 6) exServer).airplaneRooms.get? "100" =
          none ∧
        (exAirplaneRoom.removeExpiredRoom (fun _ => 6) exServer).airplaneGames.get? "100" =
          none ∧
        exAirplaneRoom.isRoomExist (exAirplaneRoom.removeExpiredRoom (fun _ => 6) exServer)
          "100" = false) :=
  ⟨by decide, by decide,
    (removeExpiredRoom_removes_past exServer (fun _ => 6) "100").1 exAirplaneRoom
      ⟨"17", "", 5⟩ (by decide) (fun _ _ => by decide)⟩

/-- C7: `removeExpiredRoom` removes only expired entries: in each registry a
room whose expire is not before any instant the clock reads during the sweep
is still in the room table afterwards with the same record, and its
game-state entry is as before. -/
theorem removeExpiredRoom_frame (s : Server AG RG TG) (clock : Nat → Time)
    (roomid : String) :
    (∀ (a r : AirplaneRoom), s.airplaneRooms.get? roomid = some r →
      (∀ k, k < s.airplaneRooms.entries.length → (clock k).After r.expire = false) →
      (a.removeExpiredRoom clock s).airplaneRooms.get? roomid = some r ∧
        (a.removeExpiredRoom clock s).airplaneGames.get? roomid =
          s.airplaneGames.get? roomid) ∧
    (∀ (p r : RPSRoom), s.rpsRooms.get? roomid = some r →
      (∀ k, k < s.rpsRooms.entries.length → (clock k).After r.expire = false) →
      (p.removeExpiredRoom clock s).rpsRooms.get? roomid = some r ∧
        (p.removeExpiredRoom clock s).rpsGames.get? roomid = s.rpsGames.get? roomid) ∧
    (∀ (t r : TicTacToeBoxRoom), s.tictactoeRooms.get? roomid = some r →
      (∀ k, k < s.tictactoeRooms.entries.length → (clock k).After r.expire = false) →
      (t.removeExpiredRoom clock s).tictactoeRooms.get? roomid = some r ∧
        (t.removeExpiredRoom clock s).tictactoeGames.get? roomid =
          s.tictactoeGames.get? roomid) := by
  refine ⟨fun a r h hA => ?_, fun p r h hA => ?_, fun t r h hA => ?_⟩
  · rw [airplane_removeExpiredRoom_eq]
    exact sweep_keeps AirplaneRoom.expire clock s.airplaneRooms s.airplaneGames roomid r h hA
  · rw [rps_removeExpiredRoom_eq]
    exact sweep_keeps RPSRoom.expire clock s.rpsRooms s.rpsGames roomid r h hA
  · rw [tictactoe_removeExpiredRoom_eq]
    exact sweep_keeps TicTacToeBoxRoom.expire clock s.tictactoeRooms s.tictactoeGames
      roomid r h hA

/-- C7 at `exServer` swept while the clock reads 3: room `"100"` (expire 5) and
its game state stay as they are. -/
theorem removeExpiredRoom_frame_witness :
    exServer.airplaneRooms.get? "100" = some ⟨"17", "", 5⟩ ∧
      (exAirplaneRoom.removeExpiredRoom (fun _ => 3) exServer).airplaneRooms.get? "100" =
        some ⟨"17", "", 5⟩ ∧
      (exAirplaneRoom.removeExpiredRoom (fun _ => 3) exServer).airplaneGames.get? "100" =
        exServer.airplaneGames.get? "100" :=
  ⟨by decide,
    (removeExpiredRoom_frame exServer (fun _ => 3) "100").1 exAirplaneRoom
      ⟨"17", "", 5⟩ (by decide) (fun _ _ => by decide)⟩


theorem airplane_generateRoomidLoop_congr (room : AirplaneRoom)
    (s s2 : Server AG RG TG) (h : s.airplaneRooms = s2.airplaneRooms)
    (rand : Nat → Fin 1000000) (fuel index : Nat) :
    AirplaneRoom.generateRoomidLoop room s rand fuel index =
      AirplaneRoom.generateRoomidLoop room s2 rand fuel index := by
  induction fuel generalizing index with
  | zero => rfl
  | succ fuel ih => simp [AirplaneRoom.generateRoomidLoop, AirplaneRoom.isRoomExist, h, ih]

theorem rps_generateRoomidLoop_congr (room : RPSRoom)
    (s s2 : Server AG RG TG) (h : s.rpsRooms = s2.rpsRooms)
    (rand : Nat → Fin 1000000) (fuel index : Nat) :
    RPSRoom.generateRoomidLoop room s rand fuel index =
      RPSRoom.generateRoomidLoop room s2 rand fuel index := by
  induction fuel generalizing index with
  | zero => rfl
  | succ fuel ih => simp [RPSRoom.generateRoomidLoop, RPSRoom.isRoomExist, h, ih]

theorem tictactoe_generateRoomidLoop_congr (room : TicTacToeBoxRoom)
    (s s2 : Server AG RG TG) (h : s.tictactoeRooms = s2.tictactoeRooms)
    (rand : Nat → Fin 1000000) (fuel index : Nat) :
    TicTacToeBoxRoom.generateRoomidLoop room s rand fuel index =
      TicTacToeBoxRoom.generateRoomidLoop room s2 rand fuel index := by
  induction fuel generalizing index with
  | zero => rfl
  | succ fuel ih =>
    simp [TicTacToeBoxRoom.generateRoomidLoop, TicTacToeBoxRoom.isRoomExist, h, ih]

/-- C8: the three registries are independent.  A sweep of one registry leaves
the four tables of the other two registries as they are, and what
`isRoomExist`, `generateRoomid` and `removeExpiredRoom` of one registry
compute (result, and the tables of that registry afterwards) is the same on
any two servers that agree on the tables of that registry.  `isRoomExist`
and `generateRoomid` assign to no table at all, which is why they return no
server. -/
theorem registries_independent (s s2 : Server AG RG TG) (a : AirplaneRoom) (p : RPSRoom)
    (t : TicTacToeBoxRoom) (clock : Nat → Time) (rand : Nat → Fin 1000000) (fuel : Nat)
    (roomid : String) :
    ((a.removeExpiredRoom clock s).rpsRooms = s.rpsRooms ∧
      (a.removeExpiredRoom clock s).rpsGames = s.rpsGames ∧
      (a.removeExpiredRoom clock s).tictactoeRooms = s.tictactoeRooms ∧
      (a.removeExpiredRoom clock s).tictactoeGames = s.tictactoeGames) ∧
    ((p.removeExpiredRoom clock s).airplaneRooms = s.airplaneRooms ∧
      (p.removeExpiredRoom clock s).airplaneGames = s.airplaneGames ∧
      (p.removeExpiredRoom clock s).tictactoeRooms = s.tictactoeRooms ∧
      (p.removeExpiredRoom clock s).tictactoeGames = s.tictactoeGames) ∧
    ((t.removeExpiredRoom clock s).airplaneRooms = s.airplaneRooms ∧
      (t.removeExpiredRoom clock s).airplaneGames = s.airplaneGames ∧
      (t.removeExpiredRoom clock s).rpsRooms = s.rpsRooms ∧
      (t.removeExpiredRoom clock s).rpsGames = s.rpsGames) ∧
    (s.airplaneRooms = s2.airplaneRooms → s.airplaneGames = s2.airplaneGames →
      a.isRoomExist s roomid = a.isRoomExist s2 roomid ∧
        a.generateRoomid s rand fuel = a.generateRoomid s2 rand fuel ∧
        (a.removeExpiredRoom clock s).airplaneRooms =
          (a.removeExpiredRoom clock s2).airplaneRooms ∧
        (a.removeExpiredRoom clock s).airplaneGames =
          (a.removeExpiredRoom clock s2).airplaneGames) ∧
    (s.rpsRooms = s2.rpsRooms → s.rpsGames = s2.rpsGames →
      p.isRoomExist s roomid = p.isRoomExist s2 roomid ∧
        p.generateRoomid s rand fuel = p.generateRoomid s2 rand fuel ∧
        (p.removeExpiredRoom clock s).rpsRooms = (p.removeExpiredRoom clock s2).rpsRooms ∧
        (p.removeExpiredRoom clock s).rpsGames = (p.removeExpiredRoom clock s2).rpsGames) ∧
    (s.tictactoeRooms = s2.tictactoeRooms → s.tictactoeGames = s2.tictactoeGames →
      t.isRoomExist s roomid = t.isRoomExist s2 roomid ∧
        t.generateRoomid s rand fuel = t.generateRoomid s2 rand fuel ∧
        (t.removeExpiredRoom clock s).tictactoeRooms =
          (t.removeExpiredRoom clock s2).tictactoeRooms ∧
        (t.removeExpiredRoom clock s).tictactoeGames =
          (t.removeExpiredRoom clock s2).tictactoeGames) := by
  refine ⟨?_, ?_, ?_, fun h1 h2 => ?_, fun h1 h2 => ?_, fun h1 h2 => ?_⟩
  · rw [airplane_removeExpiredRoom_eq]; exact ⟨rfl, rfl, rfl, rfl⟩
  · rw [rps_removeExpiredRoom_eq]; exact ⟨rfl, rfl, rfl, rfl⟩
  · rw [tictactoe_removeExpiredRoom_eq]; exact ⟨rfl, rfl, rfl, rfl⟩
  · refine ⟨by simp [AirplaneRoom.isRoomExist, h1],
      airplane_generateRoomidLoop_congr a s s2 h1 rand fuel 0, ?_, ?_⟩
    · rw [airplane_removeExpiredRoom_eq, airplane_removeExpiredRoom_eq, h1, h2]
    · rw [airplane_removeExpiredRoom_eq, airplane_removeExpiredRoom_eq, h1, h2]
  · refine ⟨by simp [RPSRoom.isRoomExist, h1],
      rps_generateRoomidLoop_congr p s s2 h1 rand fuel 0, ?_, ?_⟩
    · rw [rps_removeExpiredRoom_eq, rps_removeExpiredRoom_eq, h1, h2]
    · rw [rps_removeExpiredRoom_eq, rps_removeExpiredRoom_eq, h1, h2]
  · refine ⟨by simp [TicTacToeBoxRoom.isRoomExist, h1],
      tictactoe_generateRoomidLoop_congr t s s2 h1 rand fuel 0, ?_, ?_⟩
    · rw [tictactoe_removeExpiredRoom_eq, tictactoe_removeExpiredRoom_eq,
        h1, h2]
    · rw [tictactoe_removeExpiredRoom_eq, tictactoe_removeExpiredRoom_eq,
        h1, h2]

/-- C8 at `exServer` and `exServerOther`, which agree on the Airplane tables
only: the Airplane operations give the same results on both. -/
theorem registries_independent_witness :
    exServer.airplaneRooms = exServerOther.airplaneRooms ∧
      exServer.airplaneGames = exServerOther.airplaneGames ∧
      (exAirplaneRoom.isRoomExist exServer "100" =
          exAirplaneRoom.isRoomExist exServerOther "100" ∧
        exAirplaneRoom.generateRoomid exServer exRand 5 =
          exAirplaneRoom.generateRoomid exServerOther exRand 5 ∧
        (exAirplaneRoom.removeExpiredRoom exClock exServer).airplaneRooms =
          (exAirplaneRoom.removeExpiredRoom exClock exServerOther).airplaneRooms ∧
        (exAirplaneRoom.removeExpiredRoom exClock exServer).airplaneGames =
          (exAirplaneRoom.removeExpiredRoom exClock exServerOther).airplaneGames) :=
  ⟨rfl, rfl,
    (registries_independent exServer exServerOther exAirplaneRoom exRPSRoom
      exTicTacToeBoxRoom exClock exRand 5 "100").2.2.2.1 rfl rfl⟩

/-- C9: `getPlayerNow` is a function of the room record and the token alone
(it takes no table and returns none): two calls on rooms with the same
player1 and player2 and with the same token give the same result, for each
of the three room types. -/
theorem getPlayerNow_idempotent (user : String) :
    (∀ a a2 : AirplaneRoom, a.player1 = a2.player1 → a.player2 = a2.player2 →
      a.getPlayerNow user = a2.getPlayerNow user) ∧
    (∀ p p2 : RPSRoom, p.player1 = p2.player1 → p.player2 = p2.player2 →
      p.getPlayerNow user = p2.getPlayerNow user) ∧
    (∀ t t2 : TicTacToeBoxRoom, t.player1 = t2.player1 → t.player2 = t2.player2 →
      t.getPlayerNow user = t2.getPlayerNow user) := by
  refine ⟨fun a a2 h1 h2 => ?_, fun p p2 h1 h2 => ?_, fun t t2 h1 h2 => ?_⟩
  · simp [AirplaneRoom.getPlayerNow, h1, h2]
  · simp [RPSRoom.getPlayerNow, h1, h2]
  · simp [TicTacToeBoxRoom.getPlayerNow, h1, h2]

/-- C9 on a room read twice, `"42"` being its player2 and only its expire
differing between the two reads: both calls answer `"player2"`. -/
theorem getPlayerNow_idempotent_witness :
    AirplaneRoom.getPlayerNow ⟨"23", "42", 0⟩ "42" =
        AirplaneRoom.getPlayerNow ⟨"23", "42", 7⟩ "42" ∧
      AirplaneRoom.getPlayerNow ⟨"23", "42", 0⟩ "42" = "player2" :=
  ⟨(getPlayerNow_idempotent "42").1 ⟨"23", "42", 0⟩ ⟨"23", "42", 7⟩ rfl rfl, by decide⟩


theorem getRandomInt_data (i : Nat) (r : Fin i) :
    (getRandomInt i r).data = Nat.toDigits 10 r.val := rfl

theorem getRandomInt_canonical (i : Nat) (r : Fin i) :
    IsCanonicalDecimal (getRandomInt i r) r.val := by
  refine ⟨?_, ?_, ?_⟩
  · rw [getRandomInt_data]; exact toDigits_all_digits r.val
  · rw [getRandomInt_data]
    intro h
    by_cases h0 : r.val = 0
    · apply String.ext
      rw [getRandomInt_data, h0]
      rfl
    · obtain ⟨c, rest, hc, hne⟩ := toDigits_head r.val h0
      rw [hc] at h
      simp at h
      exact absurd h hne
  · rw [getRandomInt_data]; exact decimalValue_toDigits r.val

theorem getRandomInt_injective (i : Nat) : Function.Injective (getRandomInt i) := by
  intro r1 r2 h
  have h1 := (getRandomInt_canonical i r1).2.2
  have h2 := (getRandomInt_canonical i r2).2.2
  rw [h] at h1
  exact Fin.ext (h1.symm.trans h2)

theorem getRandomInt_length (r : Fin 1000000) :
    1 ≤ (getRandomInt 1000000 r).length ∧ (getRandomInt 1000000 r).length ≤ 6 := by
  constructor
  · show 1 ≤ (getRandomInt 1000000 r).data.length
    rw [getRandomInt_data]
    by_cases h : r.val < 10
    · rw [toDigits_lt_ten _ h]; simp
    · rw [toDigits_ten_le _ (by omega)]; simp
  · exact Nat.repr_length r.val 6 (by norm_num) (by have := r.isLt; omega)

/-- C10: for every value `r` that `rand.Intn(1000000)` can return,
`getRandomInt(1000000)` is the canonical decimal string of the integer `r`,
with `0 ≤ r ≤ 999999`: one to six characters, digits only (no sign), no
leading zero.  Distinct integers give distinct strings, so the identifier
space has exactly 1,000,000 elements. -/
theorem getRandomInt_space :
    (∀ r : Fin 1000000, 0 ≤ r.val ∧ r.val ≤ 999999 ∧
      getRandomInt 1000000 r = toString r.val ∧
      IsCanonicalDecimal (getRandomInt 1000000 r) r.val ∧
      1 ≤ (getRandomInt 1000000 r).length ∧ (getRandomInt 1000000 r).length ≤ 6) ∧
    Function.Injective (getRandomInt 1000000) ∧
    (Finset.univ.image (getRandomInt 1000000)).card = 1000000 := by
  refine ⟨fun r => ⟨Nat.zero_le _, by have := r.isLt; omega, rfl,
    getRandomInt_canonical _ r, getRandomInt_length r⟩, getRandomInt_injective _, ?_⟩
  rw [Finset.card_image_of_injective _ (getRandomInt_injective _), Finset.card_univ,
    Fintype.card_fin]


/-! ### The three copies of each method -/

theorem GoMap.ext_entries {V : Type} (m m2 : GoMap V) (h : m.entries = m2.entries) :
    m = m2 := by
  cases m; cases m2
  simp only at h
  subst h
  rfl

theorem GoMap.delete_map {V W : Type} (f : V → W) (m : GoMap V) (k : String) :
    (m.map f).delete k = (m.delete k).map f := by
  apply GoMap.ext_entries
  simp only [GoMap.delete, GoMap.map, List.filter_map]
  rfl

theorem lookup_map_snd {V W : Type} (f : V → W) (l : List (String × V)) (k : String) :
    List.lookup k (l.map (fun e => (e.1, f e.2))) = (List.lookup k l).map f := by
  induction l with
  | nil => rfl
  | cons e l ih =>
    obtain ⟨a, b⟩ := e
    simp only [List.map_cons, GoMap.lookup_cons_eq]
    by_cases h : k = a
    · simp [h]
    · simp [h, ih]

theorem GoMap.get?_map {V W : Type} (f : V → W) (m : GoMap V) (k : String) :
    (m.map f).get? k = (m.get? k).map f :=
  lookup_map_snd f m.entries k

theorem sweepLoop_map {R R2 G G2 : Type} (e : R → Time) (e2 : R2 → Time) (f : R → R2)
    (g : G → G2) (hf : ∀ r, e2 (f r) = e r) (clock : Nat → Time) (k : Nat)
    (l : List (String × R)) (p : GoMap R × GoMap G) :
    sweepLoop e2 clock k (l.map (fun en => (en.1, f en.2))) (p.1.map f, p.2.map g) =
      ((sweepLoop e clock k l p).1.map f, (sweepLoop e clock k l p).2.map g) := by
  induction l generalizing k p with
  | nil => rfl
  | cons en l ih =>
    obtain ⟨a, b⟩ := en
    by_cases h : (clock k).After (e b) = true
    · simp only [List.map_cons, sweepLoop, hf, h, if_true, GoMap.delete_map]
      exact ih (k + 1) (p.1.delete a, p.2.delete a)
    · simp only [List.map_cons, sweepLoop, hf, h]
      exact ih (k + 1) p

theorem sweep_map {R R2 G G2 : Type} (e : R → Time) (e2 : R2 → Time) (f : R → R2)
    (g : G → G2) (hf : ∀ r, e2 (f r) = e r) (clock : Nat → Time)
    (rooms : GoMap R) (games : GoMap G) :
    sweep e2 clock (rooms.map f) (games.map g) =
      ((sweep e clock rooms games).1.map f, (sweep e clock rooms games).2.map g) :=
  sweepLoop_map e e2 f g hf clock 0 rooms.entries (rooms, games)

theorem contains_map {V W : Type} (f : V → W) (m : GoMap V) (k : String) :
    (m.map f).contains k = m.contains k := by
  unfold GoMap.contains
  rw [GoMap.get?_map]
  cases m.get? k <;> rfl

theorem rps_generateRoomidLoop_agree (a : AirplaneRoom) (p : RPSRoom) (s : Server AG RG TG)
    (h : s.rpsRooms = s.airplaneRooms.map AirplaneRoom.toRPS)
    (rand : Nat → Fin 1000000) (fuel index : Nat) :
    RPSRoom.generateRoomidLoop p s rand fuel index =
      AirplaneRoom.generateRoomidLoop a s rand fuel index := by
  induction fuel generalizing index with
  | zero => rfl
  | succ fuel ih =>
    simp [RPSRoom.generateRoomidLoop, AirplaneRoom.generateRoomidLoop,
      RPSRoom.isRoomExist, AirplaneRoom.isRoomExist, h, contains_map, ih]

theorem tictactoe_generateRoomidLoop_agree (a : AirplaneRoom) (t : TicTacToeBoxRoom)
    (s : Server AG RG TG)
    (h : s.tictactoeRooms = s.airplaneRooms.map AirplaneRoom.toTicTacToe)
    (rand : Nat → Fin 1000000) (fuel index : Nat) :
    TicTacToeBoxRoom.generateRoomidLoop t s rand fuel index =
      AirplaneRoom.generateRoomidLoop a s rand fuel index := by
  induction fuel generalizing index with
  | zero => rfl
  | succ fuel ih =>
    simp [TicTacToeBoxRoom.generateRoomidLoop, AirplaneRoom.generateRoomidLoop,
      TicTacToeBoxRoom.isRoomExist, AirplaneRoom.isRoomExist, h, contains_map, ih]

/-- C11: the three copies of each registry method are the same function.  For
all player1, player2 and user the three `getPlayerNow` return the same value;
and when the RPS (TicTacToe) tables hold the same rooms under the same keys as
the Airplane tables, and game states under the same keys, visited in the same
order, then with the same clock and the same random draws `isRoomExist` and
`generateRoomid` return the same result and `removeExpiredRoom` leaves the
same rooms and game states. -/
theorem implementations_agree (s : Server AG RG TG) (a : AirplaneRoom) (p : RPSRoom)
    (t : TicTacToeBoxRoom) (g1 : AG → RG) (g2 : AG → TG) (clock : Nat → Time)
    (rand : Nat → Fin 1000000) (fuel : Nat) (roomid : String) :
    (∀ (p1 p2 user : String) (e1 e2 e3 : Time),
      RPSRoom.getPlayerNow ⟨p1, p2, e2⟩ user = AirplaneRoom.getPlayerNow ⟨p1, p2, e1⟩ user ∧
      TicTacToeBoxRoom.getPlayerNow ⟨p1, p2, e3⟩ user =
        AirplaneRoom.getPlayerNow ⟨p1, p2, e1⟩ user) ∧
    (s.rpsRooms = s.airplaneRooms.map AirplaneRoom.toRPS →
      s.rpsGames = s.airplaneGames.map g1 →
      p.isRoomExist s roomid = a.isRoomExist s roomid ∧
        p.generateRoomid s rand fuel = a.generateRoomid s rand fuel ∧
        (p.removeExpiredRoom clock s).rpsRooms =
          (a.removeExpiredRoom clock s).airplaneRooms.map AirplaneRoom.toRPS ∧
        (p.removeExpiredRoom clock s).rpsGames =
          (a.removeExpiredRoom clock s).airplaneGames.map g1) ∧
    (s.tictactoeRooms = s.airplaneRooms.map AirplaneRoom.toTicTacToe →
      s.tictactoeGames = s.airplaneGames.map g2 →
      t.isRoomExist s roomid = a.isRoomExist s roomid ∧
        t.generateRoomid s rand fuel = a.generateRoomid s rand fuel ∧
        (t.removeExpiredRoom clock s).tictactoeRooms =
          (a.removeExpiredRoom clock s).airplaneRooms.map AirplaneRoom.toTicTacToe ∧
        (t.removeExpiredRoom clock s).tictactoeGames =
          (a.removeExpiredRoom clock s).airplaneGames.map g2) := by
  refine ⟨fun p1 p2 user e1 e2 e3 => ⟨rfl, rfl⟩, fun h1 h2 => ?_, fun h1 h2 => ?_⟩
  · have hs := sweep_map AirplaneRoom.expire RPSRoom.expire AirplaneRoom.toRPS g1
      (fun _ => rfl) clock s.airplaneRooms s.airplaneGames
    refine ⟨by simp [RPSRoom.isRoomExist, AirplaneRoom.isRoomExist, h1, contains_map],
      rps_generateRoomidLoop_agree a p s h1 rand fuel 0, ?_, ?_⟩
    · rw [rps_removeExpiredRoom_eq, airplane_removeExpiredRoom_eq, h1, h2, hs]
    · rw [rps_removeExpiredRoom_eq, airplane_removeExpiredRoom_eq, h1, h2, hs]
  · have hs := sweep_map AirplaneRoom.expire TicTacToeBoxRoom.expire
      AirplaneRoom.toTicTacToe g2 (fun _ => rfl) clock s.airplaneRooms s.airplaneGames
    refine ⟨by simp [TicTacToeBoxRoom.isRoomExist, AirplaneRoom.isRoomExist, h1,
        contains_map],
      tictactoe_generateRoomidLoop_agree a t s h1 rand fuel 0, ?_, ?_⟩
    · rw [tictactoe_removeExpiredRoom_eq, airplane_removeExpiredRoom_eq, h1, h2, hs]
    · rw [tictactoe_removeExpiredRoom_eq, airplane_removeExpiredRoom_eq, h1, h2, hs]

/-- C11 at `exServer`, whose three room tables hold the same rooms and whose
game tables have the same keys: the RPS and TicTacToe methods agree with the
Airplane methods under `exClock` and `exRand`. -/
theorem implementations_agree_witness :
    (exRPSRoom.isRoomExist exServer "100" = exAirplaneRoom.isRoomExist exServer "100" ∧
      exRPSRoom.generateRoomid exServer exRand 5 =
        exAirplaneRoom.generateRoomid exServer exRand 5 ∧
      (exRPSRoom.removeExpiredRoom exClock exServer).rpsRooms =
        (exAirplaneRoom.removeExpiredRoom exClock exServer).airplaneRooms.map
          AirplaneRoom.toRPS ∧
      (exRPSRoom.removeExpiredRoom exClock exServer).rpsGames =
        (exAirplaneRoom.removeExpiredRoom exClock exServer).airplaneGames.map (· + 2)) ∧
    (exTicTacToeBoxRoom.isRoomExist exServer "100" =
        exAirplaneRoom.isRoomExist exServer "100" ∧
      exTicTacToeBoxRoom.generateRoomid exServer exRand 5 =
        exAirplaneRoom.generateRoomid exServer exRand 5 ∧
      (exTicTacToeBoxRoom.removeExpiredRoom exClock exServer).tictactoeRooms =
        (exAirplaneRoom.removeExpiredRoom exClock exServer).airplaneRooms.map
          AirplaneRoom.toTicTacToe ∧
      (exTicTacToeBoxRoom.removeExpiredRoom exClock exServer).tictactoeGames =
        (exAirplaneRoom.removeExpiredRoom exClock exServer).airplaneGames.map (· + 4)) :=
  ⟨(implementations_agree exServer exAirplaneRoom exRPSRoom exTicTacToeBoxRoom (· + 2)
      (· + 4) exClock exRand 5 "100").2.1 rfl rfl,
    (implementations_agree exServer exAirplaneRoom exRPSRoom exTicTacToeBoxRoom (· + 2)
      (· + 4) exClock exRand 5 "100").2.2 rfl rfl⟩


/-! ### Cookies and slots -/

theorem getCookie_of_find (r : http.Request) (c : http.Cookie)
    (h : r.cookies.find? (fun c => c.Name == "gameUser") = some c) :
    getCookie r = (c.Value, none) := by
  simp [getCookie, http.Request.Cookie, h]

theorem getCookie_of_find_none (r : http.Request)
    (h : r.cookies.find? (fun c => c.Name == "gameUser") = none) :
    getCookie r = ("", some GoError.ErrNoCookie) := by
  simp [getCookie, http.Request.Cookie, h]

theorem find_gameUser_none_iff (r : http.Request) :
    r.cookies.find? (fun c => c.Name == "gameUser") = none ↔
      ∀ c ∈ r.cookies, c.Name ≠ "gameUser" := by
  simp [List.find?_eq_none]

/-- C12: no validation beyond presence.  When the request carries a `gameUser`
cookie, `getCookie` returns the value of that cookie (the first of that name)
as it is, with a nil error, whatever the value; `getCookie` returns an error
exactly when the request carries no `gameUser` cookie, and the token is then
the empty string. -/
theorem getCookie_presence (r : http.Request) :
    (∀ c, r.cookies.find? (fun c => c.Name == "gameUser") = some c →
      getCookie r = (c.Value, none)) ∧
    (∀ (v : String) (rest : List http.Cookie),
      getCookie ⟨⟨"gameUser", v⟩ :: rest⟩ = (v, none)) ∧
    ((getCookie r).2 ≠ none ↔ ∀ c ∈ r.cookies, c.Name ≠ "gameUser") ∧
    ((getCookie r).2 ≠ none → (getCookie r).1 = "") := by
  refine ⟨fun c h => getCookie_of_find r c h, fun v rest => ?_, ?_, ?_⟩
  · exact getCookie_of_find _ ⟨"gameUser", v⟩ (by simp)
  · rw [← find_gameUser_none_iff]
    cases h : r.cookies.find? (fun c => c.Name == "gameUser") with
    | none => simp [getCookie_of_find_none r h]
    | some c => simp [getCookie_of_find r c h]
  · cases h : r.cookies.find? (fun c => c.Name == "gameUser") with
    | none => simp [getCookie_of_find_none r h]
    | some c => simp [getCookie_of_find r c h]

/-- C12 on a request whose `gameUser` cookie, sent after another cookie, has a
value that is not a number: the value comes back as it is. -/
theorem getCookie_presence_witness :
    getCookie ⟨[⟨"theme", "dark"⟩, ⟨"gameUser", "not a number"⟩]⟩ =
      ("not a number", none) :=
  (getCookie_presence ⟨[⟨"theme", "dark"⟩, ⟨"gameUser", "not a number"⟩]⟩).1
    ⟨"gameUser", "not a number"⟩ (by decide)

/-- C14, as stated, fails: in the waiting room with player1 `"17"` and player2
unset, the empty token is reported in slot player2. -/
theorem getPlayerNow_empty_token_is_player2 :
    AirplaneRoom.getPlayerNow ⟨"17", "", 5⟩ "" = "player2" ∧
      getCookie ⟨[⟨"gameUser", ""⟩]⟩ = ("", none) := by
  decide

/-- C14, amended: for every room whose player2 slot is unset (the empty string)
and every token `user` that is not the empty string, `getPlayerNow(user)` does
not return `"player2"`. -/
theorem getPlayerNow_waiting_room (user : String) (hu : user ≠ "") :
    (∀ a : AirplaneRoom, a.player2 = "" → a.getPlayerNow user ≠ "player2") ∧
    (∀ p : RPSRoom, p.player2 = "" → p.getPlayerNow user ≠ "player2") ∧
    (∀ t : TicTacToeBoxRoom, t.player2 = "" → t.getPlayerNow user ≠ "player2") := by
  refine ⟨fun a h => ?_, fun p h => ?_, fun t h => ?_⟩
  · unfold AirplaneRoom.getPlayerNow
    rw [h]
    by_cases h1 : user = a.player1
    · simp [h1]
    · simp [h1, hu]
  · unfold RPSRoom.getPlayerNow
    rw [h]
    by_cases h1 : user = p.player1
    · simp [h1]
    · simp [h1, hu]
  · unfold TicTacToeBoxRoom.getPlayerNow
    rw [h]
    by_cases h1 : user = t.player1
    · simp [h1]
    · simp [h1, hu]

/-- C14, amended, on the waiting room with player1 `"17"`: the token `"99"` is not
reported in slot player2. -/
theorem getPlayerNow_waiting_room_witness :
    AirplaneRoom.getPlayerNow ⟨"17", "", 5⟩ "99" ≠ "player2" :=
  (getPlayerNow_waiting_room "99" (by decide)).1 ⟨"17", "", 5⟩ rfl

/-- C15, on the code: for a request without any cookie `getCookie` hands back
`http.ErrNoCookie`, the error of `r.Cookie`, and on no request at all does it
hand back `CookieNotSet`. -/
theorem getCookie_absent_error :
    getCookie ⟨[]⟩ = ("", some GoError.ErrNoCookie) ∧
      (∀ r : http.Request, (∀ c ∈ r.cookies, c.Name ≠ "gameUser") →
        getCookie r = ("", some GoError.ErrNoCookie)) ∧
      ∀ r : http.Request, (getCookie r).2 ≠ some GoError.CookieNotSet := by
  refine ⟨by decide, fun r h => ?_, fun r => ?_⟩
  · exact getCookie_of_find_none r ((find_gameUser_none_iff r).2 h)
  · cases h : r.cookies.find? (fun c => c.Name == "gameUser") with
    | none => simp [getCookie_of_find_none r h]
    | some c => simp [getCookie_of_find r c h]


/-! ### The retry loop of generateRoomid -/

theorem airplane_generateRoomidLoop_eq (room : AirplaneRoom) (s : Server AG RG TG)
    (rand : Nat → Fin 1000000) (fuel index : Nat) :
    AirplaneRoom.generateRoomidLoop room s rand fuel index =
      retryLoop (room.isRoomExist s) rand fuel index := by
  induction fuel generalizing index with
  | zero => rfl
  | succ fuel ih => simp only [AirplaneRoom.generateRoomidLoop, retryLoop, ih]

theorem rps_generateRoomidLoop_eq (room : RPSRoom) (s : Server AG RG TG)
    (rand : Nat → Fin 1000000) (fuel index : Nat) :
    RPSRoom.generateRoomidLoop room s rand fuel index =
      retryLoop (room.isRoomExist s) rand fuel index := by
  induction fuel generalizing index with
  | zero => rfl
  | succ fuel ih => simp only [RPSRoom.generateRoomidLoop, retryLoop, ih]

theorem tictactoe_generateRoomidLoop_eq (room : TicTacToeBoxRoom) (s : Server AG RG TG)
    (rand : Nat → Fin 1000000) (fuel index : Nat) :
    TicTacToeBoxRoom.generateRoomidLoop room s rand fuel index =
      retryLoop (room.isRoomExist s) rand fuel index := by
  induction fuel generalizing index with
  | zero => rfl
  | succ fuel ih => simp only [TicTacToeBoxRoom.generateRoomidLoop, retryLoop, ih]

/-- If the draws `index`, ..., `index + k - 1` are all taken and the draw
`index + k` is free, the loop started at `index` with more than `k` units of
fuel returns the draw `index + k` after `index + k + 1` draws in all. -/
theorem retryLoop_first_fresh (isExist : String → Bool) (rand : Nat → Fin 1000000)
    (fuel index k : Nat) (hk : k < fuel)
    (htaken : ∀ j, j < k → isExist (getRandomInt 1000000 (rand (index + j))) = true)
    (hfree : isExist (getRandomInt 1000000 (rand (index + k))) = false) :
    retryLoop isExist rand fuel index =
      some (getRandomInt 1000000 (rand (index + k)), index + k + 1) := by
  induction fuel generalizing index k with
  | zero => omega
  | succ fuel ih =>
    cases k with
    | zero =>
      rw [Nat.add_zero] at hfree
      simp [retryLoop, hfree]
    | succ k =>
      have h0 : isExist (getRandomInt 1000000 (rand index)) = true := by
        simpa using htaken 0 (by omega)
      have e : index + (k + 1) = index + 1 + k := by omega
      simp only [retryLoop, h0, Bool.not_true, Bool.false_eq_true, if_false]
      rw [e]
      refine ih (index + 1) k (by omega) (fun j hj => ?_) (by rw [← e]; exact hfree)
      have e2 : index + 1 + j = index + (j + 1) := by omega
      rw [e2]
      exact htaken (j + 1) (by omega)

/-- Whatever the loop returns is a draw that is free. -/
theorem retryLoop_some_free (isExist : String → Bool) (rand : Nat → Fin 1000000)
    (fuel index : Nat) (res : String × Nat)
    (h : retryLoop isExist rand fuel index = some res) :
    ∃ k, isExist (getRandomInt 1000000 (rand k)) = false := by
  induction fuel generalizing index with
  | zero => simp [retryLoop] at h
  | succ fuel ih =>
    cases hE : isExist (getRandomInt 1000000 (rand index)) with
    | false => exact ⟨index, hE⟩
    | true =>
      simp only [retryLoop, hE, Bool.not_true, Bool.false_eq_true, if_false] at h
      exact ih (index + 1) h

/-- With every draw taken the loop uses up any fuel without returning. -/
theorem retryLoop_all_taken (isExist : String → Bool) (rand : Nat → Fin 1000000)
    (fuel index : Nat) (h : ∀ k, isExist (getRandomInt 1000000 (rand k)) = true) :
    retryLoop isExist rand fuel index = none := by
  induction fuel generalizing index with
  | zero => rfl
  | succ fuel ih => simp [retryLoop, h index, ih]

/-- The loop returns for some fuel exactly when some draw is free. -/
theorem retryLoop_returns_iff (isExist : String → Bool) (rand : Nat → Fin 1000000) :
    (∃ fuel res, retryLoop isExist rand fuel 0 = some res) ↔
      ∃ k, isExist (getRandomInt 1000000 (rand k)) = false := by
  constructor
  · rintro ⟨fuel, res, h⟩
    exact retryLoop_some_free isExist rand fuel 0 res h
  · intro h
    have hspec := Nat.find_spec h
    refine ⟨Nat.find h + 1, _, retryLoop_first_fresh isExist rand (Nat.find h + 1) 0
      (Nat.find h) (by omega) (fun j hj => ?_) (by rw [Nat.zero_add]; exact hspec)⟩
    rw [Nat.zero_add]
    have := Nat.find_min h hj
    simpa using this

theorem contains_eq_false_iff {V : Type} (m : GoMap V) (x : String) :
    (if m.contains x then true else false) = false ↔ x ∉ m.keys := by
  rw [← GoMap.contains_iff_mem_keys]
  cases m.contains x <;> simp

theorem contains_eq_true_iff {V : Type} (m : GoMap V) (x : String) :
    (if m.contains x then true else false) = true ↔ x ∈ m.keys := by
  rw [← GoMap.contains_iff_mem_keys]
  cases m.contains x <;> simp


theorem GoMap.mem_keys_set {V : Type} (m : GoMap V) (k x : String) (v : V) :
    x ∈ (m.set k v).keys ↔ x = k ∨ x ∈ m.keys := by
  rw [GoMap.mem_keys_iff, GoMap.mem_keys_iff]
  by_cases h : x = k
  · subst h
    simp [GoMap.get?_set_self]
  · simp [GoMap.get?_set_ne m k x v h, h]

theorem foldl_set_keys {α V : Type} (f : α → String) (v : V) (l : List α) (m : GoMap V)
    (x : String) :
    x ∈ (l.foldl (fun m r => m.set (f r) v) m).keys ↔ x ∈ m.keys ∨ ∃ r ∈ l, f r = x := by
  induction l generalizing m with
  | nil => simp
  | cons a l ih =>
    rw [List.foldl_cons, ih, GoMap.mem_keys_set]
    constructor
    · rintro ((h | h) | ⟨r, hr, h⟩)
      · exact Or.inr ⟨a, List.mem_cons_self _ _, h.symm⟩
      · exact Or.inl h
      · exact Or.inr ⟨r, List.mem_cons_of_mem _ hr, h⟩
    · rintro (h | ⟨r, hr, h⟩)
      · exact Or.inl (Or.inr h)
      · rcases List.mem_cons.1 hr with rfl | hr
        · exact Or.inl (Or.inl h.symm)
        · exact Or.inr ⟨r, hr, h⟩

theorem fullRooms_holds_all (r : Fin 1000000) :
    getRandomInt 1000000 r ∈ fullServer.airplaneRooms.keys := by
  have h : fullServer.airplaneRooms = fullRooms := by
    simp only [fullServer]
  rw [h, fullRooms, foldl_set_keys]
  exact Or.inr ⟨r, List.mem_finRange r, rfl⟩

/-- C16: `generateRoomid` returns a string only (there is no error result), and
in each registry it returns, for some number of iterations, exactly when some
draw of the sequence is not a key of the room table.  In particular, on a room
table that holds all 1,000,000 identifiers it returns for no sequence of draws
and no number of iterations. -/
theorem generateRoomid_returns_iff (s : Server AG RG TG) (a : AirplaneRoom) (p : RPSRoom)
    (t : TicTacToeBoxRoom) (rand : Nat → Fin 1000000) :
    (((∃ fuel res, a.generateRoomid s rand fuel = some res) ↔
        ∃ k, getRandomInt 1000000 (rand k) ∉ s.airplaneRooms.keys) ∧
      ((∃ fuel res, p.generateRoomid s rand fuel = some res) ↔
        ∃ k, getRandomInt 1000000 (rand k) ∉ s.rpsRooms.keys) ∧
      ((∃ fuel res, t.generateRoomid s rand fuel = some res) ↔
        ∃ k, getRandomInt 1000000 (rand k) ∉ s.tictactoeRooms.keys)) ∧
    ((∀ r : Fin 1000000, getRandomInt 1000000 r ∈ s.airplaneRooms.keys) →
      ∀ fuel, a.generateRoomid s rand fuel = none) ∧
    ((∀ r : Fin 1000000, getRandomInt 1000000 r ∈ s.rpsRooms.keys) →
      ∀ fuel, p.generateRoomid s rand fuel = none) ∧
    ((∀ r : Fin 1000000, getRandomInt 1000000 r ∈ s.tictactoeRooms.keys) →
      ∀ fuel, t.generateRoomid s rand fuel = none) := by
  refine ⟨⟨?_, ?_, ?_⟩, fun h fuel => ?_, fun h fuel => ?_, fun h fuel => ?_⟩
  · simp only [AirplaneRoom.generateRoomid, airplane_generateRoomidLoop_eq,
      retryLoop_returns_iff, AirplaneRoom.isRoomExist, contains_eq_false_iff]
  · simp only [RPSRoom.generateRoomid, rps_generateRoomidLoop_eq,
      retryLoop_returns_iff, RPSRoom.isRoomExist, contains_eq_false_iff]
  · simp only [TicTacToeBoxRoom.generateRoomid, tictactoe_generateRoomidLoop_eq,
      retryLoop_returns_iff, TicTacToeBoxRoom.isRoomExist, contains_eq_false_iff]
  · rw [AirplaneRoom.generateRoomid, airplane_generateRoomidLoop_eq]
    exact retryLoop_all_taken _ rand fuel 0
      (fun k => (contains_eq_true_iff s.airplaneRooms _).2 (h (rand k)))
  · rw [RPSRoom.generateRoomid, rps_generateRoomidLoop_eq]
    exact retryLoop_all_taken _ rand fuel 0
      (fun k => (contains_eq_true_iff s.rpsRooms _).2 (h (rand k)))
  · rw [TicTacToeBoxRoom.generateRoomid, tictactoe_generateRoomidLoop_eq]
    exact retryLoop_all_taken _ rand fuel 0
      (fun k => (contains_eq_true_iff s.tictactoeRooms _).2 (h (rand k)))

/-- C16 on `fullServer`, whose Airplane room table holds all 1,000,000
identifiers: `generateRoomid` does not return within 1000 iterations on the
draws `exRand`; and on `exServer` it returns because the draw 300 is free. -/
theorem generateRoomid_returns_iff_witness :
    (∀ r : Fin 1000000, getRandomInt 1000000 r ∈ fullServer.airplaneRooms.keys) ∧
      exAirplaneRoom.generateRoomid fullServer exRand 1000 = none ∧
      ∃ fuel res, exAirplaneRoom.generateRoomid exServer exRand fuel = some res :=
  ⟨fullRooms_holds_all,
    (generateRoomid_returns_iff fullServer exAirplaneRoom exRPSRoom exTicTacToeBoxRoom
      exRand).2.1 fullRooms_holds_all 1000,
    (generateRoomid_returns_iff exServer exAirplaneRoom exRPSRoom exTicTacToeBoxRoom
      exRand).1.1.2 ⟨1, by decide⟩⟩

/-- C17: `generateRoomid` returns the first fresh candidate.  In each registry,
if the draws before the k-th are keys of the room table and the k-th is not,
then with more than k iterations allowed `generateRoomid` returns the decimal
string of the k-th draw after taking exactly k + 1 draws.  It takes the server
and hands none back: the tables are as before and the returned id is still
not a key. -/
theorem generateRoomid_first_fresh (s : Server AG RG TG) (a : AirplaneRoom) (p : RPSRoom)
    (t : TicTacToeBoxRoom) (rand : Nat → Fin 1000000) (k fuel : Nat) (hk : k < fuel) :
    ((∀ j, j < k → getRandomInt 1000000 (rand j) ∈ s.airplaneRooms.keys) →
      getRandomInt 1000000 (rand k) ∉ s.airplaneRooms.keys →
      a.generateRoomid s rand fuel = some (getRandomInt 1000000 (rand k), k + 1) ∧
        a.isRoomExist s (getRandomInt 1000000 (rand k)) = false) ∧
    ((∀ j, j < k → getRandomInt 1000000 (rand j) ∈ s.rpsRooms.keys) →
      getRandomInt 1000000 (rand k) ∉ s.rpsRooms.keys →
      p.generateRoomid s rand fuel = some (getRandomInt 1000000 (rand k), k + 1) ∧
        p.isRoomExist s (getRandomInt 1000000 (rand k)) = false) ∧
    ((∀ j, j < k → getRandomInt 1000000 (rand j) ∈ s.tictactoeRooms.keys) →
      getRandomInt 1000000 (rand k) ∉ s.tictactoeRooms.keys →
      t.generateRoomid s rand fuel = some (getRandomInt 1000000 (rand k), k + 1) ∧
        t.isRoomExist s (getRandomInt 1000000 (rand k)) = false) := by
  refine ⟨fun h1 h2 => ?_, fun h1 h2 => ?_, fun h1 h2 => ?_⟩
  · have hf := (contains_eq_false_iff s.airplaneRooms _).2 h2
    refine ⟨?_, hf⟩
    rw [AirplaneRoom.generateRoomid, airplane_generateRoomidLoop_eq]
    have := retryLoop_first_fresh (a.isRoomExist s) rand fuel 0 k hk
      (fun j hj => by
        rw [Nat.zero_add]; exact (contains_eq_true_iff s.airplaneRooms _).2 (h1 j hj))
      (by rw [Nat.zero_add]; exact hf)
    simpa using this
  · have hf := (contains_eq_false_iff s.rpsRooms _).2 h2
    refine ⟨?_, hf⟩
    rw [RPSRoom.generateRoomid, rps_generateRoomidLoop_eq]
    have := retryLoop_first_fresh (p.isRoomExist s) rand fuel 0 k hk
      (fun j hj => by
        rw [Nat.zero_add]; exact (contains_eq_true_iff s.rpsRooms _).2 (h1 j hj))
      (by rw [Nat.zero_add]; exact hf)
    simpa using this
  · have hf := (contains_eq_false_iff s.tictactoeRooms _).2 h2
    refine ⟨?_, hf⟩
    rw [TicTacToeBoxRoom.generateRoomid, tictactoe_generateRoomidLoop_eq]
    have := retryLoop_first_fresh (t.isRoomExist s) rand fuel 0 k hk
      (fun j hj => by
        rw [Nat.zero_add]; exact (contains_eq_true_iff s.tictactoeRooms _).2 (h1 j hj))
      (by rw [Nat.zero_add]; exact hf)
    simpa using this

theorem exRand_taken_before_one (j : Nat) (hj : j < 1) :
    getRandomInt 1000000 (exRand j) ∈ exServer.airplaneRooms.keys := by
  have h0 : j = 0 := by omega
  subst h0
  decide

/-- C17 on `exServer` with the draws 100, 300, 300, ...: the draw 100 is a key,
the draw 300 is the first that is not, and `generateRoomid` returns `"300"`
after two draws. -/
theorem generateRoomid_first_fresh_witness :
    exAirplaneRoom.generateRoomid exServer exRand 5 = some ("300", 2) ∧
      exAirplaneRoom.isRoomExist exServer "300" = false :=
  (generateRoomid_first_fresh exServer exAirplaneRoom exRPSRoom exTicTacToeBoxRoom exRand
    1 5 (by decide)).1 exRand_taken_before_one (by decide)


/-! ### Sweeping twice -/

theorem sweepLoop_entries {R G : Type} (e : R → Time) (clock : Nat → Time) (k : Nat)
    (l : List (String × R)) (p : GoMap R × GoMap G) :
    (sweepLoop e clock k l p).1.entries =
        p.1.entries.filter (fun en => decide (en.1 ∉ removedKeys e clock k l)) ∧
      (sweepLoop e clock k l p).2.entries =
        p.2.entries.filter (fun en => decide (en.1 ∉ removedKeys e clock k l)) := by
  induction l generalizing k p with
  | nil => simp [sweepLoop, removedKeys]
  | cons en l ih =>
    obtain ⟨a, b⟩ := en
    by_cases h : (clock k).After (e b) = true
    · simp only [sweepLoop, removedKeys, h, if_true]
      obtain ⟨h1, h2⟩ := ih (k + 1) (p.1.delete a, p.2.delete a)
      rw [h1, h2]
      simp only [GoMap.delete, List.filter_filter]
      constructor <;>
      · apply List.filter_congr
        intro x _
        by_cases hx : x.1 = a <;> simp [hx]
    · simp only [sweepLoop, removedKeys, h]
      exact ih (k + 1) p

theorem sweep_entries {R G : Type} (e : R → Time) (clock : Nat → Time)
    (rooms : GoMap R) (games : GoMap G) :
    (sweep e clock rooms games).1.entries =
        rooms.entries.filter (fun en => decide (en.1 ∉ removedKeys e clock 0 rooms.entries)) ∧
      (sweep e clock rooms games).2.entries =
        games.entries.filter (fun en => decide (en.1 ∉ removedKeys e clock 0 rooms.entries)) :=
  sweepLoop_entries e clock 0 rooms.entries (rooms, games)

theorem mem_removedKeys_const {R : Type} (e : R → Time) (now : Time) (k : Nat)
    (l : List (String × R)) (x : String) :
    x ∈ removedKeys e (fun _ => now) k l ↔ ∃ r, (x, r) ∈ l ∧ now.After (e r) = true := by
  induction l generalizing k with
  | nil => simp [removedKeys]
  | cons en l ih =>
    obtain ⟨a, b⟩ := en
    by_cases h : now.After (e b) = true
    · simp only [removedKeys, h, if_true, List.mem_cons, ih]
      constructor
      · rintro (rfl | ⟨r, hr, hA⟩)
        · exact ⟨b, Or.inl rfl, h⟩
        · exact ⟨r, Or.inr hr, hA⟩
      · rintro ⟨r, hr | hr, hA⟩
        · left; exact (Prod.mk.inj hr).1
        · right; exact ⟨r, hr, hA⟩
    · have hf : now.After (e b) = false := by simpa using h
      simp only [removedKeys, hf, Bool.false_eq_true, if_false, List.mem_cons, ih]
      constructor
      · rintro ⟨r, hr, hA⟩
        exact ⟨r, Or.inr hr, hA⟩
      · rintro ⟨r, hr | hr, hA⟩
        · rw [(Prod.mk.inj hr).2] at hA
          exact absurd hA h
        · exact ⟨r, hr, hA⟩

/-- Sweeping at `t1` and then at `t2`, with `t1 ≤ t2`, is sweeping at `t2`. -/
theorem sweep_sweep {R G : Type} (e : R → Time) (t1 t2 : Time) (h : t1 ≤ t2)
    (rooms : GoMap R) (games : GoMap G) :
    sweep e (fun _ => t2) (sweep e (fun _ => t1) rooms games).1
        (sweep e (fun _ => t1) rooms games).2 =
      sweep e (fun _ => t2) rooms games := by
  have hA := sweep_entries e (fun _ => t1) rooms games
  have hB := sweep_entries e (fun _ => t2) (sweep e (fun _ => t1) rooms games).1
    (sweep e (fun _ => t1) rooms games).2
  have hC := sweep_entries e (fun _ => t2) rooms games
  have key : ∀ x : String,
      (x ∉ removedKeys e (fun _ => t2) 0 (sweep e (fun _ => t1) rooms games).1.entries ∧
        x ∉ removedKeys e (fun _ => t1) 0 rooms.entries) ↔
      x ∉ removedKeys e (fun _ => t2) 0 rooms.entries := by
    intro x
    have hmem : ∀ r, (x, r) ∈ (sweep e (fun _ => t1) rooms games).1.entries ↔
        (x, r) ∈ rooms.entries ∧ x ∉ removedKeys e (fun _ => t1) 0 rooms.entries := by
      intro r
      rw [hA.1]
      simp [List.mem_filter]
    simp only [mem_removedKeys_const, hmem, Time.After, decide_eq_true_eq, not_exists,
      not_and, not_lt]
    constructor
    · rintro ⟨h1, h2⟩ r hr
      by_contra hlt
      have hlt2 : e r < t2 := lt_of_not_le hlt
      exact absurd hlt2 (not_lt.2 (h1 r ⟨hr, h2⟩))
    · intro h3
      exact ⟨fun r hr => h3 r hr.1, fun r hr => le_trans h (h3 r hr)⟩
  have hfilter : ∀ {V : Type} (l : List (String × V)),
      (l.filter (fun en =>
          decide (en.1 ∉ removedKeys e (fun _ => t1) 0 rooms.entries))).filter
        (fun en => decide (en.1 ∉ removedKeys e (fun _ => t2) 0
          (sweep e (fun _ => t1) rooms games).1.entries)) =
      l.filter (fun en => decide (en.1 ∉ removedKeys e (fun _ => t2) 0 rooms.entries)) := by
    intro V l
    rw [List.filter_filter]
    apply List.filter_congr
    intro x _
    have := key x.1
    by_cases h2 : x.1 ∈ removedKeys e (fun _ => t2) 0 rooms.entries
    · have h3 := (not_congr this).2 (not_not.2 h2)
      simp only [h2, not_true_eq_false, decide_False, Bool.and_eq_false_imp,
        decide_eq_true_eq]
      intro h4
      by_contra h5
      exact h3 ⟨h4, by simpa using h5⟩
    · have h3 := this.2 h2
      simp [h2, h3.1, h3.2]
  apply Prod.ext
  · apply GoMap.ext_entries
    rw [hB.1, hC.1]
    have h3 := hfilter rooms.entries
    rw [← hA.1] at h3
    exact h3
  · apply GoMap.ext_entries
    rw [hB.2, hC.2]
    have h3 := hfilter games.entries
    rw [← hA.2] at h3
    exact h3


/-- C19: `removeExpiredRoom` is idempotent and monotone in time.  In each
registry, for instants `t1 ≤ t2`, a sweep while the clock reads `t1` followed
by a second sweep while it reads `t1` leaves the server that one sweep at `t1`
leaves, and a sweep at `t1` followed by a sweep at `t2` leaves the server that
one sweep at `t2` leaves. -/
theorem removeExpiredRoom_twice (s : Server AG RG TG) (a : AirplaneRoom) (p : RPSRoom)
    (t : TicTacToeBoxRoom) (t1 t2 : Time) (h : t1 ≤ t2) :
    (a.removeExpiredRoom (fun _ => t1) (a.removeExpiredRoom (fun _ => t1) s) =
        a.removeExpiredRoom (fun _ => t1) s ∧
      a.removeExpiredRoom (fun _ => t2) (a.removeExpiredRoom (fun _ => t1) s) =
        a.removeExpiredRoom (fun _ => t2) s) ∧
    (p.removeExpiredRoom (fun _ => t1) (p.removeExpiredRoom (fun _ => t1) s) =
        p.removeExpiredRoom (fun _ => t1) s ∧
      p.removeExpiredRoom (fun _ => t2) (p.removeExpiredRoom (fun _ => t1) s) =
        p.removeExpiredRoom (fun _ => t2) s) ∧
    (t.removeExpiredRoom (fun _ => t1) (t.removeExpiredRoom (fun _ => t1) s) =
        t.removeExpiredRoom (fun _ => t1) s ∧
      t.removeExpiredRoom (fun _ => t2) (t.removeExpiredRoom (fun _ => t1) s) =
        t.removeExpiredRoom (fun _ => t2) s) := by
  refine ⟨⟨?_, ?_⟩, ⟨?_, ?_⟩, ⟨?_, ?_⟩⟩
  · simp only [airplane_removeExpiredRoom_eq, sweep_sweep AirplaneRoom.expire t1 t1 le_rfl]
  · simp only [airplane_removeExpiredRoom_eq, sweep_sweep AirplaneRoom.expire t1 t2 h]
  · simp only [rps_removeExpiredRoom_eq, sweep_sweep RPSRoom.expire t1 t1 le_rfl]
  · simp only [rps_removeExpiredRoom_eq, sweep_sweep RPSRoom.expire t1 t2 h]
  · simp only [tictactoe_removeExpiredRoom_eq,
      sweep_sweep TicTacToeBoxRoom.expire t1 t1 le_rfl]
  · simp only [tictactoe_removeExpiredRoom_eq,
      sweep_sweep TicTacToeBoxRoom.expire t1 t2 h]

/-- C19 on `exServer` with `t1 = 3` and `t2 = 7`: sweeping the Airplane registry
at 3 and then at 7 leaves what one sweep at 7 leaves, the empty tables. -/
theorem removeExpiredRoom_twice_witness :
    exAirplaneRoom.removeExpiredRoom (fun _ => 7)
        (exAirplaneRoom.removeExpiredRoom (fun _ => 3) exServer) =
      exAirplaneRoom.removeExpiredRoom (fun _ => 7) exServer ∧
    (exAirplaneRoom.removeExpiredRoom (fun _ => 3) exServer).airplaneRooms.keys = ["100"] ∧
    (exAirplaneRoom.removeExpiredRoom (fun _ => 7) exServer).airplaneRooms.keys = [] :=
  ⟨(removeExpiredRoom_twice exServer exAirplaneRoom exRPSRoom exTicTacToeBoxRoom 3 7
      (by decide)).1.2, by decide, by decide⟩


/-! ### The expiry of a credential -/

/-- C18, as stated, fails: for a server in the zone of London at 2019-03-30
13:00 UTC (instant 1553950800), the day before the clocks go forward,
`getExpireTime` is 2019-03-31 13:00 local time, which is 23 hours (82,800
seconds) and not 24 hours later. -/
theorem getExpireTime_not_24h :
    getExpireTime exLondon 1553950800 = 1553950800 + 82800 ∧
      getExpireTime exLondon 1553950800 ≠ 1553950800 + 86400 := by
  decide

/-- C18, amended: `getExpireTime` is one calendar day after the instant of
issuance in the zone of the server; it is exactly 24 hours (86,400 seconds)
after `now` whenever the zone has one and the same offset from UTC at `now`
and at the two instants `time.Date` looks up one day later, as in UTC and in
every zone that does not change its offset during that day. -/
theorem getExpireTime_24h (loc : Location) (now : Time) (o : Int)
    (h0 : (loc.lookup now).offset = o)
    (h1 : (loc.lookup (now + o + 86400)).offset = o)
    (h2 : (loc.lookup (now + 86400)).offset = o) :
    getExpireTime loc now = now + 86400 := by
  have e1 : now + o + 1 * 86400 = now + o + 86400 := by ring
  have e2 : now + o + 86400 - o = now + 86400 := by ring
  unfold getExpireTime Time.AddDate Time.abs Date
  simp only [h0, e1, h1, e2, h2]
  by_cases ho : o = 0
  · simp [ho]
  · simp only [ne_eq, ho, not_false_eq_true, if_true]
    split <;> rfl

/-- C18, amended, for a server in UTC at instant 1553950800: the expiry is
86,400 seconds later. -/
theorem getExpireTime_24h_witness :
    getExpireTime exUTC 1553950800 = 1553950800 + 86400 :=
  getExpireTime_24h exUTC 1553950800 0 rfl rfl rfl

end Claims

end AmbersGames
